import Mathlib

/-!
Verification development for the statement lowering core of the ispc
compiler (`stmt.cpp`).  The statement AST, the passes over it
(type-check, optimize, emit, cost estimation), the safety analyzer and
the break/continue detector are embedded shallowly; the expression AST,
the type system and the emit context -- which live in other translation
units -- are modelled as black boxes exposing exactly the operations
`stmt.cpp` consumes from them.
-/

set_option maxHeartbeats 4000000

namespace Ispc

/-! ## Types

The type hierarchy (`type.cpp`) is not part of the given source.
Modelled from the spec: types are atomic (bool/int/float/...), enum,
reference (wrapping a target type), or collections -- struct, array and
vector, the latter two also being "sequential" types.  Each type knows
whether it is uniform or varying and whether it is const. -/

inductive Variability where
  | uniform
  | varying
  deriving DecidableEq, Repr

/-- The base scalar kinds of `AtomicType`. -/
inductive BaseType where
  | boolT
  | int8
  | uint8
  | int16
  | uint16
  | int32
  | uint32
  | floatT
  | int64
  | uint64
  | doubleT
  deriving DecidableEq, Repr

inductive Typ where
  | atomic (b : BaseType) (v : Variability) (isC : Bool)
  | enum (name : String) (v : Variability) (isC : Bool)
  | ref (target : Typ)
  | arr (elt : Typ) (count : Nat)
  | vec (elt : Typ) (count : Nat)
  | structT (elts : List Typ) (v : Variability) (isC : Bool)

namespace Typ

/-- Modelled from the spec: `Type::IsUniformType`; references, arrays and
vectors take the variability of what they wrap. -/
def isUniformType : Typ → Bool
  | atomic _ v _ => v = Variability.uniform
  | enum _ v _ => v = Variability.uniform
  | ref t => t.isUniformType
  | arr e _ => e.isUniformType
  | vec e _ => e.isUniformType
  | structT _ v _ => v = Variability.uniform

/-- Modelled from the spec: `Type::IsVaryingType`. -/
def isVaryingType : Typ → Bool
  | atomic _ v _ => v = Variability.varying
  | enum _ v _ => v = Variability.varying
  | ref t => t.isVaryingType
  | arr e _ => e.isVaryingType
  | vec e _ => e.isVaryingType
  | structT _ v _ => v = Variability.varying

/-- Modelled from the spec: `Type::IsBoolType` holds exactly of atomic
bool types. -/
def isBoolType : Typ → Bool
  | atomic BaseType.boolT _ _ => true
  | _ => false

/-- Modelled from the spec: `Type::IsNumericType` holds of the non-bool
atomic types. -/
def isNumericType : Typ → Bool
  | atomic b _ _ => b ≠ BaseType.boolT
  | _ => false

/-- Modelled from the spec: `Type::IsConstType`. -/
def isConstType : Typ → Bool
  | atomic _ _ c => c
  | enum _ _ c => c
  | ref t => t.isConstType
  | arr e _ => e.isConstType
  | vec e _ => e.isConstType
  | structT _ _ c => c

/-- Modelled from the spec: `Type::GetAsNonConstType`. -/
def getAsNonConstType : Typ → Typ
  | atomic b v _ => atomic b v false
  | enum n v _ => enum n v false
  | ref t => ref t.getAsNonConstType
  | arr e c => arr e.getAsNonConstType c
  | vec e c => vec e.getAsNonConstType c
  | structT es v _ => structT es v false

/-- Modelled from the spec: `Type::GetAsUniformType`. -/
def getAsUniformType : Typ → Typ
  | atomic b _ c => atomic b Variability.uniform c
  | enum n _ c => enum n Variability.uniform c
  | ref t => ref t.getAsUniformType
  | arr e c => arr e.getAsUniformType c
  | vec e c => vec e.getAsUniformType c
  | structT es _ c => structT es Variability.uniform c

/-- Is this a `CollectionType` (struct, array or vector)? -/
def isCollection : Typ → Bool
  | arr _ _ => true
  | vec _ _ => true
  | structT _ _ _ => true
  | _ => false

/-- Is this a `SequentialType` (array or vector)? -/
def isSequential : Typ → Bool
  | arr _ _ => true
  | vec _ _ => true
  | _ => false

/-- `CollectionType::GetElementCount` / `SequentialType::GetElementCount`. -/
def getElementCount : Typ → Nat
  | arr _ c => c
  | vec _ c => c
  | structT es _ _ => es.length
  | _ => 0

/-- `CollectionType::GetElementType(i)`; for arrays and vectors the index
is irrelevant, for structs it selects the member type. -/
def getElementType (t : Typ) (i : Nat) : Typ :=
  match t with
  | arr e _ => e
  | vec e _ => e
  | structT es _ _ => es.getD i (atomic BaseType.boolT Variability.uniform false)
  | t => t

/-- `ArrayType::GetSizedArray(k)`. -/
def getSizedArray (t : Typ) (k : Nat) : Typ :=
  match t with
  | arr e _ => arr e k
  | t => t

/-- `ReferenceType::GetReferenceTarget`. -/
def getReferenceTarget : Typ → Typ
  | ref t => t
  | t => t

/-- `Type::Equal`, structural equality of types (false on no type).
Modelled from the spec; used by `DeclStmt::Optimize` and the
reference-initializer check in `lInitSymbol`. -/
def typeEqual : Typ → Typ → Bool
  | atomic b v c, atomic b' v' c' => b = b' ∧ v = v' ∧ c = c'
  | enum n v c, enum n' v' c' => n = n' ∧ v = v' ∧ c = c'
  | ref t, ref t' => typeEqual t t'
  | arr e c, arr e' c' => typeEqual e e' && (c = c' : Bool)
  | vec e c, vec e' c' => typeEqual e e' && (c = c' : Bool)
  | structT es v c, structT es' v' c' =>
    typeEqualList es es' && (v = v' ∧ c = c' : Bool)
  | _, _ => false
where
  typeEqualList : List Typ → List Typ → Bool
  | [], [] => true
  | e :: es, e' :: es' => typeEqual e e' && typeEqualList es es'
  | _, _ => false

end Typ

/-- `Type::Equal` on nullable types: false when either side is null. -/
def optTypeEqual : Option Typ → Option Typ → Bool
  | some a, some b => Typ.typeEqual a b
  | _, _ => false

/-- `AtomicType::UniformBool` and friends: the canonical non-const
atomic type singletons referenced from `stmt.cpp`. -/
def uniformBool : Typ := Typ.atomic BaseType.boolT Variability.uniform false
def varyingBool : Typ := Typ.atomic BaseType.boolT Variability.varying false
def uniformInt8 : Typ := Typ.atomic BaseType.int8 Variability.uniform false
def uniformUInt8 : Typ := Typ.atomic BaseType.uint8 Variability.uniform false
def uniformInt16 : Typ := Typ.atomic BaseType.int16 Variability.uniform false
def uniformUInt16 : Typ := Typ.atomic BaseType.uint16 Variability.uniform false
def uniformInt32 : Typ := Typ.atomic BaseType.int32 Variability.uniform false
def varyingInt32 : Typ := Typ.atomic BaseType.int32 Variability.varying false

/-! ## Expressions

The expression AST (`expr.cpp`) is external to the given source.
`stmt.cpp` probes it with `dynamic_cast` against the concrete subclasses
below and reads the listed member fields, so the embedding gives one
constructor per subclass probed, carrying those fields.  The black-box
`Expr::GetType()` result is stored on each node (for the nodes that
`stmt.cpp` itself builds -- `TypeCastExpr`, `DereferenceExpr` -- the type
is modelled from the spec: a cast has its target type, a dereference
strips one reference layer). -/

inductive Expr where
  | unary (ty : Option Typ) (e : Expr)
  | binary (ty : Option Typ) (arg0 arg1 : Expr)
  | assign (ty : Option Typ) (lvalue rvalue : Expr)
  | select (ty : Option Typ) (test expr1 expr2 : Expr)
  | exprList (exprs : List Expr)
  | funcCall (ty : Option Typ)
  | indexE (ty : Option Typ) (arrayOrVector : Option Expr) (index : Expr)
  | member (ty : Option Typ) (e : Expr)
  | constE (ty : Option Typ) (vals : List Int)
  | typeCast (target : Typ) (e : Expr)
  | refE (ty : Option Typ) (e : Expr)
  | derefE (e : Expr)
  | symbolE (ty : Option Typ)
  | funcSymE
  | syncE

namespace Expr

/-- `Expr::GetType()`.  For nodes read off the black-box expression AST
the stored (arbitrary) answer is returned; for the two node kinds that
`stmt.cpp` itself constructs the behaviour is modelled from the spec:
a `TypeCastExpr` has the type it casts to, a `DereferenceExpr` has the
target type of its operand's reference type. -/
def getType : Expr → Option Typ
  | unary ty _ => ty
  | binary ty _ _ => ty
  | assign ty _ _ => ty
  | select ty _ _ _ => ty
  | exprList _ => none
  | funcCall ty => ty
  | indexE ty _ _ => ty
  | member ty _ => ty
  | constE ty _ => ty
  | typeCast target _ => some target
  | derefE e =>
    match e.getType with
    | some (Typ.ref t) => some t
    | _ => none
  | refE ty _ => ty
  | symbolE ty => ty
  | funcSymE => none
  | syncE => none

/-- `dynamic_cast<ExprList *>` succeeds? -/
def isExprList : Expr → Bool
  | exprList _ => true
  | _ => false

/-- `dynamic_cast<ConstExpr *>` succeeds? -/
def isConstExpr : Expr → Bool
  | constE _ _ => true
  | _ => false

end Expr

/-! ## Symbols and statements -/

/-- Storage classes; only `SC_STATIC` is distinguished by `stmt.cpp`. -/
inductive StorageClass where
  | auto
  | static
  deriving DecidableEq, Repr

/-- A `Symbol` (owned by the symbol table).  Only the fields `stmt.cpp`
reads or writes are modelled. -/
structure Symbol where
  name : String
  ty : Option Typ
  storageClass : StorageClass
  constValue : Option Expr

/-- `struct VariableDeclaration { Symbol *sym; Expr *init; }`. -/
structure VarDecl where
  sym : Symbol
  init : Option Expr

/-- The statement AST of `stmt.cpp`.  Source positions are not modelled
(they only feed diagnostics).  The `doAllCheck` / `doCoherentCheck` /
`doCoherenceCheck` flags are stored as computed by the constructors
(coherent keyword and the global coherent-control-flow switch already
folded in), and `IfStmt`'s derived `doAnyCheck` flag likewise. -/
inductive Stmt where
  | exprStmt (expr : Option Expr)
  | declStmt (vars : List VarDecl)
  | ifStmt (test : Option Expr) (trueStmts falseStmts : Option Stmt)
      (doAllCheck doAnyCheck : Bool)
  | doStmt (testExpr : Option Expr) (bodyStmts : Option Stmt) (doCoherentCheck : Bool)
  | forStmt (init : Option Stmt) (test : Option Expr) (step : Option Stmt)
      (stmts : Option Stmt) (doCoherentCheck : Bool)
  | breakStmt (doCoherenceCheck : Bool)
  | continueStmt (doCoherenceCheck : Bool)
  | returnStmt (val : Option Expr) (doCoherenceCheck : Bool)
  | stmtList (stmts : List (Option Stmt))
  | printStmt (format : String) (values : Option Expr)
  | assertStmt (message : String) (expr : Option Expr)

/-! ## The safe-with-all-lanes-off predicate

`lSafeToRunWithAllLanesOff(Expr *)` and `lSafeToRunWithAllLanesOff(Stmt *)`
from `stmt.cpp`.  The expression variant returns `false` for a null
expression; the statement variant returns `true` for a null statement.
The `FATAL` default cases (unknown node kinds) cannot arise in the
embedding; the `assert(seqType != NULL)` in the index case is modelled
as the conservative answer `false`. -/

mutual

def lSafeExpr : Expr → Bool
  | Expr.unary _ sub => lSafeExpr sub
  | Expr.binary _ a0 a1 => lSafeExpr a0 && lSafeExpr a1
  | Expr.assign _ lv rv => lSafeExpr lv && lSafeExpr rv
  | Expr.select _ t e1 e2 => lSafeExpr t && lSafeExpr e1 && lSafeExpr e2
  | Expr.exprList es => lSafeExprList es
  | Expr.funcCall _ => false
  | Expr.indexE _ arrayOrVector index =>
    match arrayOrVector with
    | none => false
    | some av =>
      match av.getType, index with
      | some ty, Expr.constE _ vals =>
        let ty := if let Typ.ref t := ty then t else ty
        if ty.isSequential then
          let nElements := ty.getElementCount
          if nElements = 0 then false
          else vals.all (fun i => 0 ≤ i && i < (nElements : Int))
        else false
      | _, _ => false
  | Expr.member _ sub => lSafeExpr sub
  | Expr.constE _ _ => true
  | Expr.typeCast _ sub => lSafeExpr sub
  | Expr.refE _ sub => lSafeExpr sub
  | Expr.derefE sub => lSafeExpr sub
  | Expr.symbolE _ => true
  | Expr.funcSymE => true
  | Expr.syncE => true

def lSafeExprList : List Expr → Bool
  | [] => true
  | e :: rest => lSafeExpr e && lSafeExprList rest

end

/-- The `Expr *` overload of `lSafeToRunWithAllLanesOff`: a null
expression is not safe. -/
def lSafeToRunWithAllLanesOffExpr : Option Expr → Bool
  | none => false
  | some e => lSafeExpr e

mutual

def lSafeToRunWithAllLanesOffStmt : Option Stmt → Bool
  | none => true
  | some s => lSafeStmtCore s

def lSafeStmtCore : Stmt → Bool
  | Stmt.exprStmt expr => lSafeToRunWithAllLanesOffExpr expr
  | Stmt.declStmt vars => lSafeDecls vars
  | Stmt.ifStmt test ts fs _ _ =>
    lSafeToRunWithAllLanesOffExpr test &&
    lSafeToRunWithAllLanesOffStmt ts &&
    lSafeToRunWithAllLanesOffStmt fs
  | Stmt.doStmt testExpr bodyStmts _ =>
    lSafeToRunWithAllLanesOffExpr testExpr &&
    lSafeToRunWithAllLanesOffStmt bodyStmts
  | Stmt.forStmt init test step stmts _ =>
    lSafeToRunWithAllLanesOffStmt init &&
    lSafeToRunWithAllLanesOffExpr test &&
    lSafeToRunWithAllLanesOffStmt step &&
    lSafeToRunWithAllLanesOffStmt stmts
  | Stmt.breakStmt _ => true
  | Stmt.continueStmt _ => true
  | Stmt.returnStmt val _ => lSafeToRunWithAllLanesOffExpr val
  | Stmt.stmtList stmts => lSafeStmts stmts
  | Stmt.printStmt _ values => lSafeToRunWithAllLanesOffExpr values
  | Stmt.assertStmt _ _ => false

def lSafeDecls : List VarDecl → Bool
  | [] => true
  | v :: rest => lSafeToRunWithAllLanesOffExpr v.init && lSafeDecls rest

def lSafeStmts : List (Option Stmt) → Bool
  | [] => true
  | s :: rest => lSafeToRunWithAllLanesOffStmt s && lSafeStmts rest

end

/-! ## The varying break/continue detector

`lHasVaryingBreakOrContinue` from `stmt.cpp`: recursion through
statement lists and `if` branches only, with the `inVaryingCF` flag set
when an enclosing `if` test's type is varying; nested loops stop the
recursion. -/

mutual

def lHasVaryingBreakOrContinue (stmt : Option Stmt) (inVaryingCF : Bool) : Bool :=
  match stmt with
  | none => false
  | some (Stmt.stmtList stmts) => lHasVBCList stmts inVaryingCF
  | some (Stmt.ifStmt test ts fs _ _) =>
    let inVaryingCF :=
      match test with
      | none => inVaryingCF
      | some t =>
        match t.getType with
        | none => inVaryingCF
        | some ty => inVaryingCF || ty.isVaryingType
    lHasVaryingBreakOrContinue ts inVaryingCF ||
    lHasVaryingBreakOrContinue fs inVaryingCF
  | some (Stmt.breakStmt _) => inVaryingCF
  | some (Stmt.continueStmt _) => inVaryingCF
  | some _ => false

def lHasVBCList (stmts : List (Option Stmt)) (inVaryingCF : Bool) : Bool :=
  match stmts with
  | [] => false
  | s :: rest =>
    lHasVaryingBreakOrContinue s inVaryingCF || lHasVBCList rest inVaryingCF

end

/-! ## The black-box environment

The expression-level passes (`Expr::TypeCheck`, `Expr::Optimize`,
`Expr::EstimateCost`, `Expr::GetValue`, `Expr::GetConstant`),
`TypeConvertExpr`, the global option `g->opt.disableUniformControlFlow`,
the target vector width and the opaque `COST_*` tuning constants all
live outside `stmt.cpp`; they are bundled as parameters. -/

structure Env where
  /-- `Expr::TypeCheck()`: possibly-null replacement expression. -/
  etc : Expr → Option Expr
  /-- `Expr::Optimize()`. -/
  eopt : Expr → Expr
  /-- `Expr::EstimateCost()`. -/
  ecost : Expr → Int
  /-- Does `Expr::GetValue(ctx)` return a non-null value? -/
  evalOk : Expr → Bool
  /-- Does `Expr::GetConstant(type)` return a non-null constant? -/
  gconst : Expr → Typ → Bool
  /-- `TypeConvertExpr(expr, type, "initializer")`. -/
  tconv : Expr → Typ → Option Expr
  /-- `g->opt.disableUniformControlFlow`. -/
  disableUniformControlFlow : Bool
  /-- `g->target.vectorWidth`. -/
  vectorWidth : Nat
  costUniformIf : Int
  costVaryingIf : Int
  costUniformLoop : Int
  costVaryingLoop : Int
  costRegularBreakContinue : Int
  costCoherentBreakContinue : Int
  costReturn : Int
  costFuncall : Int
  costAssert : Int
  /-- The `PREDICATE_SAFE_IF_STATEMENT_COST` threshold. -/
  predicateSafeIfStatementCost : Int

/-! ## The type-check pass

`TypeCheck()` for each statement variant; a `none` result is the null
sentinel meaning an error was reported. -/

/-- The per-variable part of `DeclStmt::TypeCheck`: type-check the
initializer, and for atomic/enum-typed variables convert a non-brace
initializer to the declared type.  Returns the updated declaration and
whether an error was encountered. -/
def tcVar (E : Env) (v : VarDecl) : VarDecl × Bool :=
  match v.init with
  | none => (v, false)
  | some i0 =>
    match E.etc i0 with
    | none => ({ v with init := none }, false)
    | some i1 =>
      match v.sym.ty with
      | some t =>
        if (match t with
            | Typ.atomic _ _ _ => true
            | Typ.enum _ _ _ => true
            | _ => false) then
          if i1.isExprList then ({ v with init := some i1 }, false)
          else
            match E.tconv i1 t with
            | none => ({ v with init := none }, true)
            | some i2 => ({ v with init := some i2 }, false)
        else ({ v with init := some i1 }, false)
      | none => ({ v with init := some i1 }, false)

/-- `DeclStmt::TypeCheck`'s loop over the declarations. -/
def tcVars (E : Env) : List VarDecl → List VarDecl × Bool
  | [] => ([], false)
  | v :: rest =>
    let (v', e) := tcVar E v
    let (rest', e') := tcVars E rest
    (v' :: rest', e || e')

mutual

def stmtTypeCheck (E : Env) : Stmt → Option Stmt
  | Stmt.exprStmt expr => some (Stmt.exprStmt (expr.bind E.etc))
  | Stmt.declStmt vars =>
    let (vars', err) := tcVars E vars
    if err then none else some (Stmt.declStmt vars')
  | Stmt.ifStmt test ts fs doAllCheck doAnyCheck =>
    let test := test.bind E.etc
    match test with
    | none =>
      some (Stmt.ifStmt none (stmtTypeCheckOpt E ts) (stmtTypeCheckOpt E fs)
        doAllCheck doAnyCheck)
    | some t =>
      match t.getType with
      | none =>
        some (Stmt.ifStmt (some t) (stmtTypeCheckOpt E ts) (stmtTypeCheckOpt E fs)
          doAllCheck doAnyCheck)
      | some testType =>
        let isUniform := testType.isUniformType && !E.disableUniformControlFlow
        if !testType.isNumericType && !testType.isBoolType then none
        else
          some (Stmt.ifStmt
            (some (Expr.typeCast (if isUniform then uniformBool else varyingBool) t))
            (stmtTypeCheckOpt E ts) (stmtTypeCheckOpt E fs) doAllCheck doAnyCheck)
  | Stmt.doStmt testExpr bodyStmts doCoherentCheck =>
    let testExpr := testExpr.bind E.etc
    match testExpr with
    | none => some (Stmt.doStmt none (stmtTypeCheckOpt E bodyStmts) doCoherentCheck)
    | some t =>
      match t.getType with
      | none =>
        some (Stmt.doStmt (some t) (stmtTypeCheckOpt E bodyStmts) doCoherentCheck)
      | some testType =>
        if !testType.isNumericType && !testType.isBoolType then none
        else
          let uniformTest := testType.isUniformType &&
            !E.disableUniformControlFlow &&
            !lHasVaryingBreakOrContinue bodyStmts false
          some (Stmt.doStmt
            (some (Expr.typeCast (if uniformTest then uniformBool else varyingBool) t))
            (stmtTypeCheckOpt E bodyStmts) doCoherentCheck)
  | Stmt.forStmt init test step stmts doCoherentCheck =>
    let test := test.bind E.etc
    match test with
    | none =>
      some (Stmt.forStmt (stmtTypeCheckOpt E init) none (stmtTypeCheckOpt E step)
        (stmtTypeCheckOpt E stmts) doCoherentCheck)
    | some t =>
      match t.getType with
      | none =>
        some (Stmt.forStmt (stmtTypeCheckOpt E init) (some t) (stmtTypeCheckOpt E step)
          (stmtTypeCheckOpt E stmts) doCoherentCheck)
      | some testType =>
        if !testType.isNumericType && !testType.isBoolType then none
        else
          let uniformTest := testType.isUniformType &&
            !E.disableUniformControlFlow &&
            !lHasVaryingBreakOrContinue stmts false
          some (Stmt.forStmt (stmtTypeCheckOpt E init)
            (some (Expr.typeCast (if uniformTest then uniformBool else varyingBool) t))
            (stmtTypeCheckOpt E step) (stmtTypeCheckOpt E stmts) doCoherentCheck)
  | Stmt.breakStmt cc => some (Stmt.breakStmt cc)
  | Stmt.continueStmt cc => some (Stmt.continueStmt cc)
  | Stmt.returnStmt val cc => some (Stmt.returnStmt (val.bind E.etc) cc)
  | Stmt.stmtList stmts => some (Stmt.stmtList (stmtTypeCheckList E stmts))
  | Stmt.printStmt format values => some (Stmt.printStmt format (values.bind E.etc))
  | Stmt.assertStmt message expr =>
    let expr := expr.bind E.etc
    match expr with
    | none => some (Stmt.assertStmt message none)
    | some e =>
      match e.getType with
      | none => some (Stmt.assertStmt message (some e))
      | some ty =>
        if !ty.isNumericType && !ty.isBoolType then none
        else
          let isUniform := ty.isUniformType
          some (Stmt.assertStmt message
            (some (Expr.typeCast (if isUniform then uniformBool else varyingBool) e)))

/-- `if (s) s = s->TypeCheck();` on a nullable sub-statement. -/
def stmtTypeCheckOpt (E : Env) : Option Stmt → Option Stmt
  | none => none
  | some s => stmtTypeCheck E s

/-- `StmtList::TypeCheck`'s loop: each non-null entry is replaced by its
(possibly null) type-check result. -/
def stmtTypeCheckList (E : Env) : List (Option Stmt) → List (Option Stmt)
  | [] => []
  | s :: rest => stmtTypeCheckOpt E s :: stmtTypeCheckList E rest

end

/-! ## The optimize pass -/

/-- The per-variable part of `DeclStmt::Optimize`: optimize the
initializer and, for a const-typed symbol whose optimized initializer is
a non-brace-list expression of equal type, capture the initializer as
the symbol's constant value (null when it is not a `ConstExpr`). -/
def optVar (E : Env) (v : VarDecl) : VarDecl :=
  match v.init with
  | none => v
  | some i0 =>
    let init := E.eopt i0
    let captures :=
      match v.sym.ty with
      | some t =>
        t.isConstType && !init.isExprList && optTypeEqual init.getType (some t)
      | none => false
    if captures then
      { v with init := some init,
               sym := { v.sym with
                        constValue := if init.isConstExpr then some init else none } }
    else { v with init := some init }

mutual

def stmtOptimize (E : Env) : Stmt → Stmt
  | Stmt.exprStmt expr => Stmt.exprStmt (expr.map E.eopt)
  | Stmt.declStmt vars => Stmt.declStmt (vars.map (optVar E))
  | Stmt.ifStmt test ts fs a b =>
    Stmt.ifStmt (test.map E.eopt) (stmtOptimizeOpt E ts) (stmtOptimizeOpt E fs) a b
  | Stmt.doStmt testExpr bodyStmts cc =>
    Stmt.doStmt (testExpr.map E.eopt) (stmtOptimizeOpt E bodyStmts) cc
  | Stmt.forStmt init test step stmts cc =>
    Stmt.forStmt (stmtOptimizeOpt E init) (test.map E.eopt) (stmtOptimizeOpt E step)
      (stmtOptimizeOpt E stmts) cc
  | Stmt.breakStmt cc => Stmt.breakStmt cc
  | Stmt.continueStmt cc => Stmt.continueStmt cc
  | Stmt.returnStmt val cc => Stmt.returnStmt (val.map E.eopt) cc
  | Stmt.stmtList stmts => Stmt.stmtList (stmtOptimizeList E stmts)
  | Stmt.printStmt format values => Stmt.printStmt format (values.map E.eopt)
  | Stmt.assertStmt message expr => Stmt.assertStmt message (expr.map E.eopt)

def stmtOptimizeOpt (E : Env) : Option Stmt → Option Stmt
  | none => none
  | some s => stmtOptimize E s

def stmtOptimizeList (E : Env) : List (Option Stmt) → List (Option Stmt)
  | [] => []
  | s :: rest => stmtOptimizeOpt E s :: stmtOptimizeList E rest

end

/-! ## The cost estimator -/

/-- The `test ? test->GetType()->IsUniformType() : ...` computation shared
by `ForStmt::EmitCode` and `ForStmt::EstimateCost`.  When the test is
present the C++ dereferences `GetType()` unchecked; a null type (which
would crash the compiler) is modelled as "not uniform". -/
def forStmtUniformTest (E : Env) (test : Option Expr) (stmts : Option Stmt) : Bool :=
  match test with
  | some t =>
    match t.getType with
    | some ty => ty.isUniformType
    | none => false
  | none =>
    !E.disableUniformControlFlow && !lHasVaryingBreakOrContinue stmts false

mutual

def stmtEstimateCost (E : Env) : Stmt → Int
  | Stmt.exprStmt expr =>
    match expr with
    | some e => E.ecost e
    | none => 0
  | Stmt.declStmt vars => declsCost E vars
  | Stmt.ifStmt test ts fs _ _ =>
    let ifcost : Int :=
      match test with
      | some t =>
        match t.getType with
        | some ty => if ty.isUniformType then E.costUniformIf else E.costVaryingIf
        | none => 0
      | none => 0
    ifcost +
      ((match test with | some t => E.ecost t | none => 0) +
       stmtEstimateCostOpt E ts + stmtEstimateCostOpt E fs)
  | Stmt.doStmt testExpr bodyStmts _ =>
    (match testExpr with | some t => E.ecost t | none => 0) +
      stmtEstimateCostOpt E bodyStmts
  | Stmt.forStmt init test step stmts _ =>
    stmtEstimateCostOpt E init +
      (match test with | some t => E.ecost t | none => 0) +
      stmtEstimateCostOpt E step + stmtEstimateCostOpt E stmts +
      (if forStmtUniformTest E test stmts then E.costUniformLoop
       else E.costVaryingLoop)
  | Stmt.breakStmt cc =>
    if cc then E.costCoherentBreakContinue else E.costRegularBreakContinue
  | Stmt.continueStmt cc =>
    if cc then E.costCoherentBreakContinue else E.costRegularBreakContinue
  | Stmt.returnStmt val _ =>
    E.costReturn + (match val with | some v => E.ecost v | none => 0)
  | Stmt.stmtList stmts => stmtsCost E stmts
  | Stmt.printStmt _ values =>
    E.costFuncall + (match values with | some v => E.ecost v | none => 0)
  | Stmt.assertStmt _ expr =>
    (match expr with | some e => E.ecost e | none => 0) + E.costAssert

def stmtEstimateCostOpt (E : Env) : Option Stmt → Int
  | none => 0
  | some s => stmtEstimateCost E s

def declsCost (E : Env) : List VarDecl → Int
  | [] => 0
  | v :: rest =>
    (match v.init with | some i => E.ecost i | none => 0) + declsCost E rest

def stmtsCost (E : Env) : List (Option Stmt) → Int
  | [] => 0
  | s :: rest => stmtEstimateCostOpt E s + stmtsCost E rest

end

/-! ## The emit context

`FunctionEmitContext` (`ctx.cpp`) is external; it is modelled as a small
state (current basic block, fresh-name counter, the internal and
function masks) plus a trace of the operations `stmt.cpp` invokes on it.
LLVM values are represented symbolically. -/

/-- Symbolic `llvm::Value *`s. -/
inductive LVal where
  /-- The result of `expr->GetValue(ctx)`. -/
  | exprVal (e : Expr)
  /-- `llvm::UndefValue::get(type->LLVMType(...))`. -/
  | undef (t : Typ)
  /-- `llvm::Constant::getNullValue(llvmType)` for a static slot. -/
  | zeroInit (t : Typ)
  /-- The null `void **` passed for an argument-less `print`. -/
  | nullPtr
  /-- `LLVMMaskAllOn`. -/
  | allOn
  /-- `LLVMTrue`. -/
  | boolTrue
  /-- `LLVMBoolVector(true)`. -/
  | boolVecTrue
  /-- A mask conjunction maintained by `SetInternalMaskAnd`. -/
  | andM (a b : LVal)
  /-- A mask and-not maintained by `SetInternalMaskAndNot`. -/
  | andNotM (a b : LVal)
  /-- `ctx->All(v)`. -/
  | allReduce (v : LVal)
  /-- `ctx->Any(v)`. -/
  | anyReduce (v : LVal)
  /-- `ctx->LaneMask(v)`. -/
  | laneMask (v : LVal)
  /-- The result of `ctx->AllocaInst(...)`, by allocation id. -/
  | alloca (id : Nat)
  /-- `ctx->GetElementPtrInst(base, i, j, ...)`. -/
  | gep (base : LVal) (i j : Nat)
  /-- `ctx->BitCastInst(v, ...)`. -/
  | bitcastV (v : LVal)
  /-- `ctx->GetStringPtr(s)`. -/
  | strPtr (s : String)
  /-- A module-scope `llvm::GlobalVariable` for a static. -/
  | globalV (name : String)
  /-- The non-null result of `expr->GetConstant(type)`. -/
  | constantV (e : Expr) (t : Typ)
  /-- A 32-bit integer constant (`LLVMInt32`). -/
  | intConst (n : Nat)

/-- The diagnostics `stmt.cpp` can report during emission. -/
inductive ErrKind where
  /-- "Can't declare an unsized array ... without ... an initializer". -/
  | unsizedArrayNoInit
  /-- "Must provide initializer for reference-type variable". -/
  | refNoInit
  /-- "Initializer for static variable ... must be a constant". -/
  | staticNotConst
  /-- "Expression list initializers can't be used for variable ...". -/
  | exprListAtomic
  /-- "Initializer for reference type ... must have same reference type". -/
  | refTypeMismatch
  /-- "Initializer for <coll> \"x\" requires %d values; %d provided.". -/
  | arityMismatch (required provided : Nat)
  /-- "Can't assign type X to Y.". -/
  | cantAssign
  /-- "Only atomic types are allowed in print statements ...". -/
  | printIllegalType

/-- The warnings `stmt.cpp` can report during emission. -/
inductive WarnKind where
  /-- "Uniform condition supplied to \"cif\" statement.". -/
  | uniformCif
  /-- "Uniform condition supplied to \"cdo\" statement.". -/
  | uniformCdo
  /-- "Uniform condition supplied to cfor/cwhile statement.". -/
  | uniformCfor

/-- One operation performed against the emit context (or the diagnostic
sink, or a `Symbol`'s mutable fields) during `EmitCode`. -/
inductive Op where
  | setDebugPos
  | evalExpr (e : Expr)
  | startScope
  | endScope
  | instrumentation (label : String)
  | startUniformIf
  | startVaryingIf (oldMask : LVal)
  | endIf
  | startLoop (breakTarget continueTarget : Nat) (uniformControlFlow : Bool)
  | endLoop
  | setLoopMask (m : LVal)
  | restoreContinuedLanes
  | warn (w : WarnKind)
  | error (e : ErrKind)
  | createBB (name : String) (id : Nat)
  | setBB (id : Nat)
  | branch (dest : Nat)
  | condBranch (trueBlock falseBlock : Nat) (cond : LVal)
  | branchIfMaskAll (allBlock mixedBlock : Nat)
  | branchIfMaskAny (runBlock skipBlock : Nat)
  | setInternalMask (m : LVal)
  | setFunctionMask (m : LVal)
  | setInternalMaskAnd (oldMask test : LVal)
  | setInternalMaskAndNot (oldMask test : LVal)
  | breakOp (doCoherenceCheck : Bool)
  | continueOp (doCoherenceCheck : Bool)
  | lanesReturned (val : Option Expr) (doCoherenceCheck : Bool)
  | allocaOp (name : String) (id : Nat)
  | store (v ptr : LVal)
  | gepOp (base : LVal) (i j : Nat)
  | bitcastOp (v : LVal)
  | globalVar (name : String) (init : LVal)
  | debugInfo (symName : String)
  | call (fn : String) (args : List LVal)
  | symSetVaryingCFDepth (symName : String) (depth : Nat)
  | symSetType (symName : String) (t : Typ)
  | symSetStoragePtr (symName : String) (ptr : LVal)
  | symSetParentFunction (symName : String)

/-- The modelled `FunctionEmitContext` state. -/
structure Ctx where
  /-- `GetCurrentBasicBlock()`: none means flow was terminated. -/
  bb : Option Nat
  /-- Fresh-id supply for basic blocks and allocas. -/
  fresh : Nat
  /-- The internal (per-if/loop) mask. -/
  internalMask : LVal
  /-- The function-level mask. -/
  functionMask : LVal
  /-- `VaryingCFDepth()`. -/
  varyingCFDepth : Nat
  /-- The trace of operations performed so far. -/
  ops : List Op

namespace Ctx

def emit (c : Ctx) (o : Op) : Ctx := { c with ops := c.ops ++ [o] }

def emits (c : Ctx) (os : List Op) : Ctx := { c with ops := c.ops ++ os }

/-- `CreateBasicBlock(name)`: returns a fresh, unplaced block. -/
def createBasicBlock (c : Ctx) (name : String) : Nat × Ctx :=
  (c.fresh, { c with fresh := c.fresh + 1, ops := c.ops ++ [Op.createBB name c.fresh] })

def setCurrentBasicBlock (c : Ctx) (b : Nat) : Ctx :=
  { c with bb := some b, ops := c.ops ++ [Op.setBB b] }

/-- `BranchInst(dest)`: emits the terminator and clears the current block. -/
def branchInst (c : Ctx) (dest : Nat) : Ctx :=
  { c with bb := none, ops := c.ops ++ [Op.branch dest] }

/-- `BranchInst(t, f, cond)`. -/
def condBranchInst (c : Ctx) (t f : Nat) (cond : LVal) : Ctx :=
  { c with bb := none, ops := c.ops ++ [Op.condBranch t f cond] }

def branchIfMaskAll (c : Ctx) (t f : Nat) : Ctx :=
  { c with bb := none, ops := c.ops ++ [Op.branchIfMaskAll t f] }

def branchIfMaskAny (c : Ctx) (t f : Nat) : Ctx :=
  { c with bb := none, ops := c.ops ++ [Op.branchIfMaskAny t f] }

/-- `GetFullMask()`.  Modelled from the spec: the full mask is the
conjunction of the function and internal masks, with the conjunction
short-circuited when one operand is the all-on constant. -/
def getFullMask (c : Ctx) : LVal :=
  match c.functionMask, c.internalMask with
  | LVal.allOn, m => m
  | m, LVal.allOn => m
  | a, b => LVal.andM a b

/-- The `ctx->GetFullMask() == LLVMMaskAllOn` compile-time test. -/
def fullMaskIsAllOn (c : Ctx) : Bool :=
  match c.getFullMask with
  | LVal.allOn => true
  | _ => false

def setInternalMask (c : Ctx) (m : LVal) : Ctx :=
  { c with internalMask := m, ops := c.ops ++ [Op.setInternalMask m] }

def setFunctionMask (c : Ctx) (m : LVal) : Ctx :=
  { c with functionMask := m, ops := c.ops ++ [Op.setFunctionMask m] }

/-- `SetInternalMaskAnd(oldMask, test)`: internal mask becomes their
conjunction. -/
def setInternalMaskAnd (c : Ctx) (oldMask test : LVal) : Ctx :=
  { c with internalMask := LVal.andM oldMask test,
           ops := c.ops ++ [Op.setInternalMaskAnd oldMask test] }

/-- `SetInternalMaskAndNot(oldMask, test)`. -/
def setInternalMaskAndNot (c : Ctx) (oldMask test : LVal) : Ctx :=
  { c with internalMask := LVal.andNotM oldMask test,
           ops := c.ops ++ [Op.setInternalMaskAndNot oldMask test] }

/-- `expr->GetValue(ctx)`: black-box evaluation; whether it returns a
non-null value is given by the environment. -/
def getValue (E : Env) (c : Ctx) (e : Expr) : Option LVal × Ctx :=
  ((if E.evalOk e then some (LVal.exprVal e) else none), c.emit (Op.evalExpr e))

/-- `AllocaInst(type, name)`. -/
def allocaInst (c : Ctx) (name : String) : LVal × Ctx :=
  (LVal.alloca c.fresh,
   { c with fresh := c.fresh + 1, ops := c.ops ++ [Op.allocaOp name c.fresh] })

def storeInst (c : Ctx) (v ptr : LVal) : Ctx := c.emit (Op.store v ptr)

/-- `GetElementPtrInst(base, i, j, name)`. -/
def getElementPtrInst (c : Ctx) (base : LVal) (i j : Nat) : LVal × Ctx :=
  (LVal.gep base i j, c.emit (Op.gepOp base i j))

def bitCastInst (c : Ctx) (v : LVal) : LVal × Ctx :=
  (LVal.bitcastV v, c.emit (Op.bitcastOp v))

def callInst (c : Ctx) (fn : String) (args : List LVal) : Ctx :=
  c.emit (Op.call fn args)

end Ctx

/-! ## Declaration lowering -/

/- `lInitSymbol`: emit code to initialize a symbol's storage from an
optional initializer expression (the `initExpr == NULL` case stores an
undefined value).  The unreachable `FATAL` default (a type that is
neither atomic, enum, reference nor collection) leaves the context
unchanged. -/

mutual

/-- The non-null-initializer part of `lInitSymbol`: a non-brace-list
initializer is first run through `TypeConvertExpr`; on success its value
is stored and the routine returns.  Otherwise (a brace list, or a failed
conversion) control falls through to the per-type cases. -/
def lInitSymbolSome (E : Env) (lvalue : LVal) (symName : String) (type : Typ)
    (initExpr : Expr) (ctx : Ctx) : Ctx :=
  if initExpr.isExprList then lInitNonConverted E lvalue symName type initExpr ctx
  else
    match E.tconv initExpr type with
    | some ie =>
      let (v?, ctx) := ctx.getValue E ie
      match v? with
      | some v => ctx.storeInst v lvalue
      | none => ctx
    | none => lInitNonConverted E lvalue symName type initExpr ctx
termination_by 3 * sizeOf initExpr + 1
decreasing_by all_goals (simp_wf; try omega)

/-- The per-type cases of `lInitSymbol`, reached when the initializer is
a brace list or could not be converted to the declared type: atomic and
enum types reject brace lists, references require an initializer of
equal reference type, collections recurse element-wise over a brace
list of matching arity. -/
def lInitNonConverted (E : Env) (lvalue : LVal) (symName : String) (type : Typ)
    (initExpr : Expr) (ctx : Ctx) : Ctx :=
  match type with
  | Typ.atomic _ _ _ =>
    if initExpr.isExprList then ctx.emit (Op.error ErrKind.exprListAtomic) else ctx
  | Typ.enum _ _ _ =>
    if initExpr.isExprList then ctx.emit (Op.error ErrKind.exprListAtomic) else ctx
  | Typ.ref _ =>
    if !optTypeEqual initExpr.getType (some type) then
      ctx.emit (Op.error ErrKind.refTypeMismatch)
    else
      let (v?, ctx) := ctx.getValue E initExpr
      match v? with
      | some v => ctx.storeInst v lvalue
      | none => ctx
  | Typ.arr elt count =>
    match initExpr with
    | Expr.exprList es =>
      if es.length ≠ count then
        ctx.emit (Op.error (ErrKind.arityMismatch count es.length))
      else lInitElems E lvalue symName (Typ.arr elt count) es 0 ctx
    | _ => ctx.emit (Op.error ErrKind.cantAssign)
  | Typ.vec elt count =>
    match initExpr with
    | Expr.exprList es =>
      if es.length ≠ count then
        ctx.emit (Op.error (ErrKind.arityMismatch count es.length))
      else lInitElems E lvalue symName (Typ.vec elt count) es 0 ctx
    | _ => ctx.emit (Op.error ErrKind.cantAssign)
  | Typ.structT elts v c =>
    match initExpr with
    | Expr.exprList es =>
      if es.length ≠ elts.length then
        ctx.emit (Op.error (ErrKind.arityMismatch elts.length es.length))
      else lInitElems E lvalue symName (Typ.structT elts v c) es 0 ctx
    | _ => ctx.emit (Op.error ErrKind.cantAssign)
termination_by 3 * sizeOf initExpr
decreasing_by all_goals (simp_wf; try omega)

/-- The element loop of the collection case of `lInitSymbol`: for each
initializer, compute an element pointer and recurse with the
collection's element type. -/
def lInitElems (E : Env) (lvalue : LVal) (symName : String) (collType : Typ)
    (es : List Expr) (i : Nat) (ctx : Ctx) : Ctx :=
  match es with
  | [] => ctx
  | e :: rest =>
    let (ep, ctx) := ctx.getElementPtrInst lvalue 0 i
    let ctx := lInitSymbolSome E ep symName (collType.getElementType i) e ctx
    lInitElems E lvalue symName collType rest (i + 1) ctx
termination_by 3 * sizeOf es
decreasing_by all_goals (simp_wf; try omega)

end

def lInitSymbol (E : Env) (lvalue : LVal) (symName : String) (type : Typ)
    (initExpr : Option Expr) (ctx : Ctx) : Ctx :=
  match initExpr with
  | none => ctx.storeInst (LVal.undef type) lvalue
  | some e => lInitSymbolSome E lvalue symName type e ctx

/-- The tail of `DeclStmt::EmitCode`'s per-declaration body once the
declared type is resolved: reference-without-initializer check, then
the static (module-scope constant-initialized global) or non-static
(stack slot plus `lInitSymbol`) storage setup. -/
def declVarEmitTyped (E : Env) (v : VarDecl) (type : Typ) (ctx : Ctx) : Ctx :=
  if (match type with | Typ.ref _ => true | _ => false) && v.init.isNone then
    ctx.emit (Op.error ErrKind.refNoInit)
  else if v.sym.storageClass = StorageClass.static then
    let (cinit?, ctx) :=
      match v.init with
      | some ie =>
        if E.gconst ie type then (some (LVal.constantV ie type), ctx)
        else (none, ctx.emit (Op.error ErrKind.staticNotConst))
      | none => (none, ctx)
    let cinit := match cinit? with
      | some cv => cv
      | none => LVal.zeroInit type
    ((ctx.emit (Op.globalVar v.sym.name cinit)).emit
      (Op.symSetStoragePtr v.sym.name (LVal.globalV v.sym.name))).emit
      (Op.debugInfo v.sym.name)
  else
    let (ptr, ctx) := ctx.allocaInst v.sym.name
    let ctx := ctx.emit (Op.symSetStoragePtr v.sym.name ptr)
    let ctx := ctx.emit (Op.debugInfo v.sym.name)
    let ctx := ctx.emit (Op.symSetParentFunction v.sym.name)
    lInitSymbol E ptr v.sym.name type v.init ctx

/-- The body of `DeclStmt::EmitCode`'s loop for one declaration: record
the varying-control-flow depth on the symbol, resolve deferred-size
arrays (error and skip when there is no brace initializer), then set up
storage and initialization. -/
def declVarEmit (E : Env) (v : VarDecl) (ctx : Ctx) : Ctx :=
  match v.sym.ty with
  | none => ctx
  | some type0 =>
    let ctx := ctx.emit (Op.symSetVaryingCFDepth v.sym.name ctx.varyingCFDepth)
    let ctx := ctx.emit Op.setDebugPos
    match type0 with
    | Typ.arr elt 0 =>
      match v.init with
      | some (Expr.exprList es) =>
        declVarEmitTyped E v ((Typ.arr elt 0).getSizedArray es.length)
          (ctx.emit (Op.symSetType v.sym.name ((Typ.arr elt 0).getSizedArray es.length)))
      | _ => ctx.emit (Op.error ErrKind.unsizedArrayNoInit)
    | _ => declVarEmitTyped E v type0 ctx

/-- The loop of `DeclStmt::EmitCode` (after the basic-block guard). -/
def declVarsEmit (E : Env) (vars : List VarDecl) (ctx : Ctx) : Ctx :=
  match vars with
  | [] => ctx
  | v :: rest => declVarsEmit E rest (declVarEmit E v ctx)

/-! ## Print and assert lowering -/

/-- `lEncodeType`: the character encoding of an atomic value type for
`__do_print` (null for any other type). -/
def lEncodeType : Typ → Option Char
  | Typ.atomic BaseType.boolT Variability.uniform false => some 'b'
  | Typ.atomic BaseType.boolT Variability.varying false => some 'B'
  | Typ.atomic BaseType.int32 Variability.uniform false => some 'i'
  | Typ.atomic BaseType.int32 Variability.varying false => some 'I'
  | Typ.atomic BaseType.uint32 Variability.uniform false => some 'u'
  | Typ.atomic BaseType.uint32 Variability.varying false => some 'U'
  | Typ.atomic BaseType.floatT Variability.uniform false => some 'f'
  | Typ.atomic BaseType.floatT Variability.varying false => some 'F'
  | Typ.atomic BaseType.int64 Variability.uniform false => some 'l'
  | Typ.atomic BaseType.int64 Variability.varying false => some 'L'
  | Typ.atomic BaseType.uint64 Variability.uniform false => some 'v'
  | Typ.atomic BaseType.uint64 Variability.varying false => some 'V'
  | Typ.atomic BaseType.doubleT Variability.uniform false => some 'd'
  | Typ.atomic BaseType.doubleT Variability.varying false => some 'D'
  | _ => none

/-- `lProcessPrintArg`: auto-dereference references, promote 8/16-bit
integers to (signed) 32-bit, encode the type character, then evaluate
the value into a fresh stack slot and return a `void *` pointer to it.
Returns the pointer (null on failure), the extended type string and the
updated context. -/
def lProcessPrintArg (E : Env) (expr : Expr) (ctx : Ctx) (argTypes : String) :
    Option LVal × String × Ctx :=
  match expr.getType with
  | none => (none, argTypes, ctx)
  | some ty0 =>
    -- References are auto-dereferenced first.
    let next : Option (Expr × Typ) :=
      match ty0 with
      | Typ.ref _ =>
        let e' := Expr.derefE expr
        match e'.getType with
        | none => none
        | some t => some (e', t)
      | _ => some (expr, ty0)
    match next with
    | none => (none, argTypes, ctx)
    | some (expr, type) =>
      -- Just int8 and int16 types to int32s...
      let baseType := type.getAsNonConstType.getAsUniformType
      let isSmallInt : Bool :=
        match baseType with
        | Typ.atomic BaseType.int8 Variability.uniform false => true
        | Typ.atomic BaseType.uint8 Variability.uniform false => true
        | Typ.atomic BaseType.int16 Variability.uniform false => true
        | Typ.atomic BaseType.uint16 Variability.uniform false => true
        | _ => false
      let (expr, type) :=
        if isSmallInt then
          let e' := Expr.typeCast
            (if type.isUniformType then uniformInt32 else varyingInt32) expr
          (e', (if type.isUniformType then uniformInt32 else varyingInt32))
        else (expr, type)
      match lEncodeType type.getAsNonConstType with
      | none => (none, argTypes, ctx.emit (Op.error ErrKind.printIllegalType))
      | some t =>
        let argTypes := argTypes.push t
        let (ptr, ctx) := ctx.allocaInst "print_arg"
        let (val?, ctx) := ctx.getValue E expr
        match val? with
        | none => (none, argTypes, ctx)
        | some val =>
          let ctx := ctx.storeInst val ptr
          let (ptr, ctx) := ctx.bitCastInst ptr
          (some ptr, argTypes, ctx)

/-- The per-argument loop of `PrintStmt::EmitCode`: process each value,
store its pointer into the argument-pointer array; a null pointer from
`lProcessPrintArg` aborts the whole statement (`none` in the first
component). -/
def printArgsLoop (E : Env) (argPtrArray : LVal) (es : List Expr) (i : Nat)
    (ctx : Ctx) (argTypes : String) : Option String × Ctx :=
  match es with
  | [] => (some argTypes, ctx)
  | e :: rest =>
    match lProcessPrintArg E e ctx argTypes with
    | (none, _, ctx) => (none, ctx)
    | (some ptr, argTypes, ctx) =>
      let (arrayPtr, ctx) := ctx.getElementPtrInst argPtrArray 0 i
      let ctx := ctx.storeInst ptr arrayPtr
      printArgsLoop E argPtrArray rest (i + 1) ctx argTypes

/-- `PrintStmt::EmitCode` (note: no current-basic-block guard).  The
call to `__do_print` carries the format string, the accumulated type
string, the vector width, the lane mask of the full mask, and the
argument-pointer array; a failed argument aborts without the call. -/
def printStmtEmit (E : Env) (format : String) (values : Option Expr) (ctx : Ctx) :
    Ctx :=
  let ctx := ctx.emit Op.setDebugPos
  match values with
  | none =>
    ctx.callInst "__do_print"
      [LVal.strPtr format, LVal.strPtr "", LVal.intConst E.vectorWidth,
       LVal.laneMask ctx.getFullMask, LVal.nullPtr]
  | some vs =>
    let (argPtrArray, ctx) := ctx.allocaInst "print_arg_ptrs"
    let (args4, ctx) := ctx.bitCastInst argPtrArray
    match vs with
    | Expr.exprList es =>
      match printArgsLoop E argPtrArray es 0 ctx "" with
      | (none, ctx) => ctx
      | (some argTypes, ctx) =>
        ctx.callInst "__do_print"
          [LVal.strPtr format, LVal.strPtr argTypes, LVal.intConst E.vectorWidth,
           LVal.laneMask ctx.getFullMask, args4]
    | _ =>
      match lProcessPrintArg E vs ctx "" with
      | (none, _, ctx) => ctx
      | (some ptr, argTypes, ctx) =>
        let (arrayPtr, ctx) := ctx.getElementPtrInst argPtrArray 0 0
        let ctx := ctx.storeInst ptr arrayPtr
        ctx.callInst "__do_print"
          [LVal.strPtr format, LVal.strPtr argTypes, LVal.intConst E.vectorWidth,
           LVal.laneMask ctx.getFullMask, args4]

/-- `AssertStmt::EmitCode` (note: no current-basic-block guard; the
platform-specific assert-string formatting is modelled as succeeding,
producing the message). -/
def assertStmtEmit (E : Env) (message : String) (expr : Option Expr) (ctx : Ctx) :
    Ctx :=
  match expr with
  | none => ctx
  | some e =>
    match e.getType with
    | none => ctx
    | some type =>
      let isUniform := type.isUniformType
      let fn := if isUniform then "__do_assert_uniform" else "__do_assert_varying"
      let (v?, ctx) := ctx.getValue E e
      let testArg := match v? with
        | some v => v
        | none => LVal.nullPtr
      ctx.callInst fn [LVal.strPtr message, testArg, ctx.getFullMask]

/-! ## Statement lowering -/

/-- `dynamic_cast<StmtList *>(stmts)` on a nullable statement. -/
def isStmtListOpt : Option Stmt → Bool
  | some (Stmt.stmtList _) => true
  | _ => false

/-- The tail of `DoStmt::EmitCode`: evaluate the loop test at the `do_test`
block and branch back or exit. -/
def doStmtEmitTest (E : Env) (te : Expr) (uniformTest : Bool)
    (bloop bexit : Nat) (ctx : Ctx) : Ctx :=
  let (tv?, ctx) := ctx.getValue E te
  match tv? with
  | none => ctx
  | some testValue =>
    let ctx :=
      if uniformTest then ctx.condBranchInst bloop bexit testValue
      else
        let mask := ctx.internalMask
        let ctx := ctx.setInternalMaskAnd mask testValue
        ctx.branchIfMaskAny bloop bexit
    let ctx := ctx.setCurrentBasicBlock bexit
    ctx.emit Op.endLoop

mutual

/-- The body of `IfStmt::EmitCode` after the basic-block guard: evaluate
the test and dispatch between the uniform and the varying lowering. -/
def ifStmtEmitRest (E : Env) (test : Option Expr)
    (trueStmts falseStmts : Option Stmt) (doAllCheck : Bool) (ctx : Ctx) : Ctx :=
  match test with
  | none => ctx
  | some t =>
    match t.getType with
    | none => ctx
    | some testType =>
      let ctx := ctx.emit Op.setDebugPos
      let isUniform := testType.isUniformType
      let (tv?, ctx) := ctx.getValue E t
      match tv? with
      | none => ctx
      | some testValue =>
        if isUniform then
          let ctx := ctx.emit Op.startUniformIf
          let ctx :=
            if doAllCheck then ctx.emit (Op.warn WarnKind.uniformCif) else ctx
          let (bthen, ctx) := ctx.createBasicBlock "if_then"
          let (belse, ctx) := ctx.createBasicBlock "if_else"
          let (bexit, ctx) := ctx.createBasicBlock "if_exit"
          let ctx := ctx.condBranchInst bthen belse testValue
          let ctx := ctx.setCurrentBasicBlock bthen
          let ctx := lEmitIfStatements E trueStmts "true" ctx
          let ctx := if ctx.bb.isSome then ctx.branchInst bexit else ctx
          let ctx := ctx.setCurrentBasicBlock belse
          let ctx := lEmitIfStatements E falseStmts "false" ctx
          let ctx := if ctx.bb.isSome then ctx.branchInst bexit else ctx
          let ctx := ctx.setCurrentBasicBlock bexit
          ctx.emit Op.endIf
        else emitVaryingIf E trueStmts falseStmts doAllCheck testValue ctx
termination_by 5 * (sizeOf test + sizeOf trueStmts + sizeOf falseStmts) + 10
decreasing_by all_goals (simp_wf; try omega)

/-- `if (s) s->EmitCode(ctx)` on a nullable statement. -/
def stmtEmitOpt (E : Env) (s? : Option Stmt) (ctx : Ctx) : Ctx :=
  match s? with
  | some s => stmtEmitCode E s ctx
  | none => ctx
termination_by 5 * sizeOf s? + 1
decreasing_by all_goals (simp_wf; try omega)

/-- The body of `DoStmt::EmitCode` after the basic-block guard. -/
def doStmtEmitRest (E : Env) (testExpr : Option Expr) (bodyStmts : Option Stmt)
    (doCoherentCheck : Bool) (ctx : Ctx) : Ctx :=
  match testExpr with
  | none => ctx
  | some te =>
    match te.getType with
    | none => ctx
    | some testType =>
      doStmtEmitLoop E te bodyStmts doCoherentCheck testType.isUniformType ctx
termination_by 5 * (sizeOf testExpr + sizeOf bodyStmts) + 5
decreasing_by all_goals (simp_wf; try omega)

/-- `DoStmt::EmitCode`'s loop skeleton: blocks, loop bookkeeping, body and
test emission. -/
def doStmtEmitLoop (E : Env) (te : Expr) (bodyStmts : Option Stmt)
    (doCoherentCheck uniformTest : Bool) (ctx : Ctx) : Ctx :=
  let ctx :=
    if uniformTest && doCoherentCheck then
      ctx.emit (Op.warn WarnKind.uniformCdo)
    else ctx
  let (bloop, ctx) := ctx.createBasicBlock "do_loop"
  let (bexit, ctx) := ctx.createBasicBlock "do_exit"
  let (btest, ctx) := ctx.createBasicBlock "do_test"
  let ctx := ctx.emit (Op.startLoop bexit btest uniformTest)
  let ctx := ctx.branchInst bloop
  let ctx := ctx.setCurrentBasicBlock bloop
  let ctx := ctx.emit (Op.setLoopMask ctx.internalMask)
  let ctx := ctx.emit Op.setDebugPos
  let notList := !(isStmtListOpt bodyStmts)
  let ctx := if notList then ctx.emit Op.startScope else ctx
  let ctx := ctx.emit (Op.instrumentation "do loop body")
  let ctx := doStmtEmitBody E bodyStmts doCoherentCheck uniformTest btest ctx
  let ctx := if notList then ctx.emit Op.endScope else ctx
  let ctx := ctx.setCurrentBasicBlock btest
  let ctx := if !uniformTest then ctx.emit Op.restoreContinuedLanes else ctx
  doStmtEmitTest E te uniformTest bloop bexit ctx
termination_by 5 * sizeOf bodyStmts + 3
decreasing_by all_goals (simp_wf; try omega)

/-- `DoStmt::EmitCode`'s body emission, with the optional coherent
all-on/mixed split. -/
def doStmtEmitBody (E : Env) (bodyStmts : Option Stmt)
    (doCoherentCheck uniformTest : Bool) (btest : Nat) (ctx : Ctx) : Ctx :=
  if doCoherentCheck && !uniformTest then
    let (bAllOn, ctx) := ctx.createBasicBlock "do_all_on"
    let (bMixed, ctx) := ctx.createBasicBlock "do_mixed"
    let ctx := ctx.branchIfMaskAll bAllOn bMixed
    let ctx := ctx.setCurrentBasicBlock bAllOn
    let ctx := ctx.setInternalMask LVal.allOn
    let oldFunctionMask := ctx.functionMask
    let ctx := ctx.setFunctionMask LVal.allOn
    let ctx := stmtEmitOpt E bodyStmts ctx
    let ctx := ctx.setFunctionMask oldFunctionMask
    let ctx := ctx.branchInst btest
    let ctx := ctx.setCurrentBasicBlock bMixed
    let ctx := stmtEmitOpt E bodyStmts ctx
    ctx.branchInst btest
  else
    let ctx := stmtEmitOpt E bodyStmts ctx
    if ctx.bb.isSome then ctx.branchInst btest else ctx
termination_by 5 * sizeOf bodyStmts + 2
decreasing_by all_goals (simp_wf; try omega)

/-- The body of `ForStmt::EmitCode` after the basic-block guard. -/
def forStmtEmitGuts (E : Env) (init : Option Stmt) (test : Option Expr)
    (step stmts : Option Stmt) (doCoherentCheck : Bool) (ctx : Ctx) : Ctx :=
  let (btest, ctx) := ctx.createBasicBlock "for_test"
  let (bstep, ctx) := ctx.createBasicBlock "for_step"
  let (bloop, ctx) := ctx.createBasicBlock "for_loop"
  let (bexit, ctx) := ctx.createBasicBlock "for_exit"
  let uniformTest := forStmtUniformTest E test stmts
  let ctx := ctx.emit (Op.startLoop bexit bstep uniformTest)
  let ctx := ctx.emit Op.setDebugPos
  let ctx := if init.isSome then stmtEmitOpt E init (ctx.emit Op.startScope) else ctx
  let ctx := ctx.branchInst btest
  let ctx := ctx.setCurrentBasicBlock btest
  forStmtEmitTest E init test step stmts doCoherentCheck uniformTest
    btest bstep bloop bexit ctx
termination_by 5 * (sizeOf init + sizeOf test + sizeOf step + sizeOf stmts) + 6
decreasing_by all_goals (simp_wf; try omega)

/-- `ForStmt::EmitCode`'s test evaluation at the `for_test` block. -/
def forStmtEmitTest (E : Env) (init : Option Stmt) (test : Option Expr)
    (step stmts : Option Stmt) (doCoherentCheck uniformTest : Bool)
    (btest bstep bloop bexit : Nat) (ctx : Ctx) : Ctx :=
  match test with
  | some t =>
    let (v?, ctx) := ctx.getValue E t
    match v? with
    | none => (ctx.emit Op.endScope).emit Op.endLoop
    | some ltest =>
      forEmitRest E init step stmts doCoherentCheck uniformTest
        btest bstep bloop bexit ltest ctx
  | none =>
    forEmitRest E init step stmts doCoherentCheck uniformTest
      btest bstep bloop bexit
      (if uniformTest then LVal.boolTrue else LVal.boolVecTrue) ctx
termination_by 5 * (sizeOf init + sizeOf step + sizeOf stmts) + 5
decreasing_by all_goals (simp_wf; try omega)

/-- `Stmt::EmitCode` for every variant.  Each variant except `PrintStmt`
and `AssertStmt` begins with the `GetCurrentBasicBlock()` null guard. -/
def stmtEmitCode (E : Env) (s : Stmt) (ctx : Ctx) : Ctx :=
  match s with
  | Stmt.exprStmt expr =>
    match ctx.bb with
    | none => ctx
    | some _ =>
      let ctx := ctx.emit Op.setDebugPos
      match expr with
      | some e => (ctx.getValue E e).2
      | none => ctx
  | Stmt.declStmt vars =>
    match ctx.bb with
    | none => ctx
    | some _ => declVarsEmit E vars ctx
  | Stmt.ifStmt test trueStmts falseStmts doAllCheck _ =>
    match ctx.bb with
    | none => ctx
    | some _ => ifStmtEmitRest E test trueStmts falseStmts doAllCheck ctx
  | Stmt.doStmt testExpr bodyStmts doCoherentCheck =>
    match ctx.bb with
    | none => ctx
    | some _ => doStmtEmitRest E testExpr bodyStmts doCoherentCheck ctx
  | Stmt.forStmt init test step stmts doCoherentCheck =>
    match ctx.bb with
    | none => ctx
    | some _ => forStmtEmitGuts E init test step stmts doCoherentCheck ctx
  | Stmt.breakStmt cc =>
    match ctx.bb with
    | none => ctx
    | some _ => (ctx.emit Op.setDebugPos).emit (Op.breakOp cc)
  | Stmt.continueStmt cc =>
    match ctx.bb with
    | none => ctx
    | some _ => (ctx.emit Op.setDebugPos).emit (Op.continueOp cc)
  | Stmt.returnStmt val cc =>
    match ctx.bb with
    | none => ctx
    | some _ => (ctx.emit Op.setDebugPos).emit (Op.lanesReturned val cc)
  | Stmt.stmtList stmts =>
    match ctx.bb with
    | none => ctx
    | some _ =>
      let ctx := ctx.emit Op.startScope
      let ctx := ctx.emit Op.setDebugPos
      let ctx := stmtEmitList E stmts ctx
      ctx.emit Op.endScope
  | Stmt.printStmt format values => printStmtEmit E format values ctx
  | Stmt.assertStmt message expr => assertStmtEmit E message expr ctx
termination_by 5 * sizeOf s
decreasing_by all_goals (simp_wf; try omega)

/-- `StmtList::EmitCode`'s loop over the (possibly null) entries. -/
def stmtEmitList (E : Env) (ss : List (Option Stmt)) (ctx : Ctx) : Ctx :=
  match ss with
  | [] => ctx
  | s :: rest =>
    let ctx :=
      match s with
      | some st => stmtEmitCode E st ctx
      | none => ctx
    stmtEmitList E rest ctx
termination_by 5 * sizeOf ss + 1
decreasing_by all_goals (simp_wf; try omega)

/-- `lEmitIfStatements`: emit a branch body, wrapping it in a scope when
it is not already a statement list. -/
def lEmitIfStatements (E : Env) (stmts : Option Stmt) (label : String) (ctx : Ctx) :
    Ctx :=
  match stmts with
  | none => ctx
  | some s =>
    let notList := !(isStmtListOpt (some s))
    let ctx := if notList then ctx.emit Op.startScope else ctx
    let ctx := ctx.emit (Op.instrumentation label)
    let ctx := stmtEmitCode E s ctx
    if notList then ctx.emit Op.endScope else ctx
termination_by 5 * sizeOf stmts + 1
decreasing_by all_goals (simp_wf; try omega)

/-- `IfStmt::emitMaskedTrueAndFalse`: run both branches with the
internal mask set to `oldMask & test` resp. `oldMask & ~test`. -/
def emitMaskedTrueAndFalse (E : Env) (trueStmts falseStmts : Option Stmt)
    (oldMask test : LVal) (ctx : Ctx) : Ctx :=
  let ctx :=
    if trueStmts.isSome then
      let ctx := ctx.setInternalMaskAnd oldMask test
      lEmitIfStatements E trueStmts "if: expr mixed, true statements" ctx
    else ctx
  if falseStmts.isSome then
    let ctx := ctx.setInternalMaskAndNot oldMask test
    lEmitIfStatements E falseStmts "if: expr mixed, false statements" ctx
  else ctx
termination_by 5 * (sizeOf trueStmts + sizeOf falseStmts) + 2
decreasing_by all_goals (simp_wf; try omega)

/-- The closing `branch`/`SetCurrentBasicBlock`/`EndIf` sequence of
`IfStmt::emitMaskMixed`. -/
def emitMaskMixedDone (bDone : Nat) (c : Ctx) : Ctx :=
  ((c.branchInst bDone).setCurrentBasicBlock bDone).emit Op.endIf

/-- `IfStmt::emitMaskMixed` after the true branch: the optional
`any(full mask)`-gated false branch, then the closing sequence. -/
def emitMaskMixedAfterTrue (E : Env) (falseStmts : Option Stmt)
    (oldMask ltest : LVal) (bNext0 bDone : Nat) (ctx : Ctx) : Ctx :=
  let ctx :=
    if falseStmts.isSome then
      let (bRunFalse, ctx) := ctx.createBasicBlock "safe_if_run_false"
      let (bNext1, ctx) := ctx.createBasicBlock "safe_if_after_false"
      let ctx := ctx.setInternalMaskAndNot oldMask ltest
      let ctx := ctx.condBranchInst bRunFalse bNext1 (LVal.anyReduce ctx.getFullMask)
      let ctx := ctx.setCurrentBasicBlock bRunFalse
      let ctx := lEmitIfStatements E falseStmts "if: expr mixed, false statements" ctx
      let ctx := ctx.branchInst bNext1
      ctx.setCurrentBasicBlock bNext1
    else ctx
  emitMaskMixedDone bDone ctx
termination_by 5 * sizeOf falseStmts + 2
decreasing_by all_goals (simp_wf; try omega)

/-- `IfStmt::emitMaskMixed`: gate each branch on `any(full mask)`. -/
def emitMaskMixed (E : Env) (trueStmts falseStmts : Option Stmt)
    (oldMask ltest : LVal) (bDone : Nat) (ctx : Ctx) : Ctx :=
  let ctx := ctx.emit (Op.startVaryingIf oldMask)
  let (bNext0, ctx) := ctx.createBasicBlock "safe_if_after_true"
  let ctx :=
    if trueStmts.isSome then
      let (bRunTrue, ctx) := ctx.createBasicBlock "safe_if_run_true"
      let ctx := ctx.setInternalMaskAnd oldMask ltest
      let ctx := ctx.condBranchInst bRunTrue bNext0 (LVal.anyReduce ctx.getFullMask)
      let ctx := ctx.setCurrentBasicBlock bRunTrue
      let ctx := lEmitIfStatements E trueStmts "if: expr mixed, true statements" ctx
      let ctx := ctx.branchInst bNext0
      ctx.setCurrentBasicBlock bNext0
    else ctx
  emitMaskMixedAfterTrue E falseStmts oldMask ltest bNext0 bDone ctx
termination_by 5 * (sizeOf trueStmts + sizeOf falseStmts) + 3
decreasing_by all_goals (simp_wf; try omega)

/-- `IfStmt::emitMaskAllOn`: the specialized lowering when the full mask
is known to be all on. -/
def emitMaskAllOn (E : Env) (trueStmts falseStmts : Option Stmt)
    (ltest : LVal) (bDone : Nat) (ctx : Ctx) : Ctx :=
  let ctx := ctx.setInternalMask LVal.allOn
  let oldFunctionMask := ctx.functionMask
  let ctx := ctx.setFunctionMask LVal.allOn
  let (bTestAll, ctx) := ctx.createBasicBlock "cif_test_all"
  let (bTestNoneCheck, ctx) := ctx.createBasicBlock "cif_test_none_check"
  let ctx := ctx.condBranchInst bTestAll bTestNoneCheck (LVal.allReduce ltest)
  let ctx := ctx.setCurrentBasicBlock bTestAll
  let ctx := ctx.emit (Op.startVaryingIf LVal.allOn)
  let ctx := lEmitIfStatements E trueStmts "if: all on mask, expr all true" ctx
  let ctx := ctx.emit Op.endIf
  let ctx := if ctx.bb.isSome then ctx.branchInst bDone else ctx
  let ctx := ctx.setCurrentBasicBlock bTestNoneCheck
  let (bTestNone, ctx) := ctx.createBasicBlock "cif_test_none"
  let (bTestMixed, ctx) := ctx.createBasicBlock "cif_test_mixed"
  let ctx := ctx.condBranchInst bTestMixed bTestNone (LVal.anyReduce ltest)
  let ctx := ctx.setCurrentBasicBlock bTestNone
  let ctx := ctx.emit (Op.startVaryingIf LVal.allOn)
  let ctx := lEmitIfStatements E falseStmts "if: all on mask, expr all false" ctx
  let ctx := ctx.emit Op.endIf
  let ctx := if ctx.bb.isSome then ctx.branchInst bDone else ctx
  let ctx := ctx.setCurrentBasicBlock bTestMixed
  let ctx := ctx.emit (Op.startVaryingIf LVal.allOn)
  let ctx := emitMaskedTrueAndFalse E trueStmts falseStmts LVal.allOn ltest ctx
  let ctx := ctx.emit Op.endIf
  let ctx := ctx.branchInst bDone
  let ctx := ctx.setCurrentBasicBlock bDone
  ctx.setFunctionMask oldFunctionMask
termination_by 5 * (sizeOf trueStmts + sizeOf falseStmts) + 3
decreasing_by all_goals (simp_wf; try omega)

/-- `IfStmt::emitVaryingIf`: dispatch between the mask-all-on,
coherent-check, predicated and mask-mixed lowerings. -/
def emitVaryingIf (E : Env) (trueStmts falseStmts : Option Stmt)
    (doAllCheck : Bool) (ltest : LVal) (ctx : Ctx) : Ctx :=
  let oldMask := ctx.internalMask
  if ctx.fullMaskIsAllOn then
    let (bDone, ctx) := ctx.createBasicBlock "cif_done"
    let ctx := emitMaskAllOn E trueStmts falseStmts ltest bDone ctx
    ctx.setCurrentBasicBlock bDone
  else if doAllCheck then
    let (bAllOn, ctx) := ctx.createBasicBlock "cif_mask_all"
    let (bMixedOn, ctx) := ctx.createBasicBlock "cif_mask_mixed"
    let (bDone, ctx) := ctx.createBasicBlock "cif_done"
    let ctx := ctx.condBranchInst bAllOn bMixedOn (LVal.allReduce ctx.getFullMask)
    let ctx := ctx.setCurrentBasicBlock bAllOn
    let ctx := emitMaskAllOn E trueStmts falseStmts ltest bDone ctx
    let ctx := ctx.setCurrentBasicBlock bMixedOn
    let ctx := emitMaskMixed E trueStmts falseStmts oldMask ltest bDone ctx
    ctx.setCurrentBasicBlock bDone
  else if trueStmts.isSome || falseStmts.isSome then
    if lSafeToRunWithAllLanesOffStmt trueStmts &&
       lSafeToRunWithAllLanesOffStmt falseStmts &&
       decide (stmtEstimateCostOpt E trueStmts + stmtEstimateCostOpt E falseStmts <
         E.predicateSafeIfStatementCost) then
      let ctx := ctx.emit (Op.startVaryingIf oldMask)
      let ctx := emitMaskedTrueAndFalse E trueStmts falseStmts oldMask ltest ctx
      ctx.emit Op.endIf
    else
      let (bDone, ctx) := ctx.createBasicBlock "if_done"
      let ctx := emitMaskMixed E trueStmts falseStmts oldMask ltest bDone ctx
      ctx.setCurrentBasicBlock bDone
  else ctx
termination_by 5 * (sizeOf trueStmts + sizeOf falseStmts) + 4
decreasing_by all_goals (simp_wf; try omega)

/-- The tail of `ForStmt::EmitCode` after the loop-test value has been
obtained. -/
def forEmitRest (E : Env) (init step stmts : Option Stmt)
    (doCoherentCheck uniformTest : Bool) (btest bstep bloop bexit : Nat)
    (ltest : LVal) (ctx : Ctx) : Ctx :=
  let ctx :=
    if uniformTest then
      let ctx :=
        if doCoherentCheck then ctx.emit (Op.warn WarnKind.uniformCfor) else ctx
      ctx.condBranchInst bloop bexit ltest
    else
      let mask := ctx.internalMask
      let ctx := ctx.setInternalMaskAnd mask ltest
      ctx.branchIfMaskAny bloop bexit
  let ctx := ctx.setCurrentBasicBlock bloop
  let ctx := ctx.emit (Op.setLoopMask ctx.internalMask)
  let ctx := ctx.emit (Op.instrumentation "for loop body")
  let notList := !(isStmtListOpt stmts)
  let ctx := if notList then ctx.emit Op.startScope else ctx
  let ctx :=
    if doCoherentCheck && !uniformTest then
      let (bAllOn, ctx) := ctx.createBasicBlock "for_all_on"
      let (bMixed, ctx) := ctx.createBasicBlock "for_mixed"
      let ctx := ctx.branchIfMaskAll bAllOn bMixed
      let ctx := ctx.setCurrentBasicBlock bAllOn
      let ctx := ctx.setInternalMask LVal.allOn
      let oldFM := ctx.functionMask
      let ctx := ctx.setFunctionMask LVal.allOn
      let ctx := stmtEmitOpt E stmts ctx
      let ctx := ctx.setFunctionMask oldFM
      let ctx := ctx.branchInst bstep
      let ctx := ctx.setCurrentBasicBlock bMixed
      let ctx := stmtEmitOpt E stmts ctx
      ctx.branchInst bstep
    else
      let ctx := stmtEmitOpt E stmts ctx
      if ctx.bb.isSome then ctx.branchInst bstep else ctx
  let ctx := if notList then ctx.emit Op.endScope else ctx
  let ctx := ctx.setCurrentBasicBlock bstep
  let ctx := ctx.emit Op.restoreContinuedLanes
  let ctx := stmtEmitOpt E step ctx
  let ctx := ctx.branchInst btest
  let ctx := ctx.setCurrentBasicBlock bexit
  let ctx := if init.isSome then ctx.emit Op.endScope else ctx
  ctx.emit Op.endLoop
termination_by 5 * (sizeOf init + sizeOf step + sizeOf stmts) + 4
decreasing_by all_goals (simp_wf; try omega)

end

/-! ## Trace monotonicity of emission

Every operation the emit functions perform appends to the context's
trace; `OpsLe a b` says `b`'s trace extends `a`'s. -/

def OpsLe (a b : Ctx) : Prop := ∃ t, b.ops = a.ops ++ t

/-- A concrete environment used by witnesses: expression-level passes are
identities, evaluation and constant-folding succeed, uniform control
flow is enabled. -/
def E0 : Env where
  etc := fun e => some e
  eopt := fun e => e
  ecost := fun _ => 1
  evalOk := fun _ => true
  gconst := fun _ _ => true
  tconv := fun e _ => some e
  disableUniformControlFlow := false
  vectorWidth := 4
  costUniformIf := 1
  costVaryingIf := 2
  costUniformLoop := 4
  costVaryingLoop := 6
  costRegularBreakContinue := 1
  costCoherentBreakContinue := 4
  costReturn := 4
  costFuncall := 4
  costAssert := 8
  predicateSafeIfStatementCost := 32

/-- The test expression of an `if`/`do`/`for`/`assert` statement. -/
def stmtTest : Stmt → Option Expr
  | Stmt.ifStmt test _ _ _ _ => test
  | Stmt.doStmt te _ _ => te
  | Stmt.forStmt _ test _ _ _ => test
  | Stmt.assertStmt _ e => e
  | _ => none

/-- A concrete starting context used by witnesses: a live basic block,
all-on masks, empty trace. -/
def ctx0 : Ctx where
  bb := some 0
  fresh := 1
  internalMask := LVal.allOn
  functionMask := LVal.allOn
  varyingCFDepth := 0
  ops := []

/-- The lowering dichotomy of `IfStmt::emitVaryingIf` when the full mask
is not statically all-on and the coherent check is off: the predicated
form (both branches run under `oldMask & test` / `oldMask & ~test` with
no gate) when both branches are safe with all lanes off and cheap, the
`any(full mask)`-gated mask-mixed form otherwise. -/
def varyingIfLoweringSpec (E : Env) (ts fs : Option Stmt) (ltest : LVal)
    (ctx : Ctx) : Prop :=
  ((ts.isSome || fs.isSome) = true →
    (lSafeToRunWithAllLanesOffStmt ts && lSafeToRunWithAllLanesOffStmt fs &&
      decide (stmtEstimateCostOpt E ts + stmtEstimateCostOpt E fs <
        E.predicateSafeIfStatementCost)) = true →
    emitVaryingIf E ts fs false ltest ctx =
      (emitMaskedTrueAndFalse E ts fs ctx.internalMask ltest
        (ctx.emit (Op.startVaryingIf ctx.internalMask))).emit Op.endIf) ∧
  ((ts.isSome || fs.isSome) = true →
    (lSafeToRunWithAllLanesOffStmt ts && lSafeToRunWithAllLanesOffStmt fs &&
      decide (stmtEstimateCostOpt E ts + stmtEstimateCostOpt E fs <
        E.predicateSafeIfStatementCost)) = false →
    emitVaryingIf E ts fs false ltest ctx =
      (emitMaskMixed E ts fs ctx.internalMask ltest
        ((ctx.createBasicBlock "if_done").1)
        ((ctx.createBasicBlock "if_done").2)).setCurrentBasicBlock
        ((ctx.createBasicBlock "if_done").1)) ∧
  (∀ (om : LVal) (c : Ctx), ts.isSome = true → fs.isSome = true →
    emitMaskedTrueAndFalse E ts fs om ltest c =
      lEmitIfStatements E fs "if: expr mixed, false statements"
        ((lEmitIfStatements E ts "if: expr mixed, true statements"
          (c.setInternalMaskAnd om ltest)).setInternalMaskAndNot om ltest)) ∧
  (∀ (om : LVal) (bD : Nat) (c : Ctx), ts.isSome = true →
    ∃ tail, (emitMaskMixed E ts fs om ltest bD c).ops =
      c.ops ++
        [Op.startVaryingIf om,
         Op.createBB "safe_if_after_true" c.fresh,
         Op.createBB "safe_if_run_true" (c.fresh + 1),
         Op.setInternalMaskAnd om ltest,
         Op.condBranch (c.fresh + 1) c.fresh
           (LVal.anyReduce ((((c.emit (Op.startVaryingIf om)).createBasicBlock
             "safe_if_after_true").2.createBasicBlock
             "safe_if_run_true").2.setInternalMaskAnd om ltest).getFullMask),
         Op.setBB (c.fresh + 1)] ++ tail) ∧
  (∀ (om : LVal) (bD : Nat) (c : Ctx), ts = none → fs.isSome = true →
    ∃ tail, (emitMaskMixed E ts fs om ltest bD c).ops =
      c.ops ++
        [Op.startVaryingIf om,
         Op.createBB "safe_if_after_true" c.fresh,
         Op.createBB "safe_if_run_false" (c.fresh + 1),
         Op.createBB "safe_if_after_false" (c.fresh + 2),
         Op.setInternalMaskAndNot om ltest,
         Op.condBranch (c.fresh + 1) (c.fresh + 2)
           (LVal.anyReduce (((((c.emit (Op.startVaryingIf om)).createBasicBlock
             "safe_if_after_true").2.createBasicBlock
             "safe_if_run_false").2.createBasicBlock
             "safe_if_after_false").2.setInternalMaskAndNot om ltest).getFullMask),
         Op.setBB (c.fresh + 1)] ++ tail)

theorem OpsLe.refl (c : Ctx) : OpsLe c c := ⟨[], by simp⟩

theorem OpsLe.trans {a b c : Ctx} (h1 : OpsLe a b) (h2 : OpsLe b c) : OpsLe a c := by
  obtain ⟨t1, ht1⟩ := h1
  obtain ⟨t2, ht2⟩ := h2
  exact ⟨t1 ++ t2, by rw [ht2, ht1, List.append_assoc]⟩

theorem OpsLe.emit {a c : Ctx} (h : OpsLe a c) (o : Op) : OpsLe a (c.emit o) :=
  h.trans ⟨[o], rfl⟩

theorem OpsLe.createBB {a c : Ctx} (h : OpsLe a c) (n : String) :
    OpsLe a ((c.createBasicBlock n).2) :=
  h.trans ⟨[Op.createBB n c.fresh], rfl⟩

theorem OpsLe.setBB {a c : Ctx} (h : OpsLe a c) (b : Nat) :
    OpsLe a (c.setCurrentBasicBlock b) :=
  h.trans ⟨[Op.setBB b], rfl⟩

theorem OpsLe.branch {a c : Ctx} (h : OpsLe a c) (d : Nat) :
    OpsLe a (c.branchInst d) :=
  h.trans ⟨[Op.branch d], rfl⟩

theorem OpsLe.condBranch {a c : Ctx} (h : OpsLe a c) (t f : Nat) (v : LVal) :
    OpsLe a (c.condBranchInst t f v) :=
  h.trans ⟨[Op.condBranch t f v], rfl⟩

theorem OpsLe.maskAll {a c : Ctx} (h : OpsLe a c) (t f : Nat) :
    OpsLe a (c.branchIfMaskAll t f) :=
  h.trans ⟨[Op.branchIfMaskAll t f], rfl⟩

theorem OpsLe.maskAny {a c : Ctx} (h : OpsLe a c) (t f : Nat) :
    OpsLe a (c.branchIfMaskAny t f) :=
  h.trans ⟨[Op.branchIfMaskAny t f], rfl⟩

theorem OpsLe.setIM {a c : Ctx} (h : OpsLe a c) (m : LVal) :
    OpsLe a (c.setInternalMask m) :=
  h.trans ⟨[Op.setInternalMask m], rfl⟩

theorem OpsLe.setFM {a c : Ctx} (h : OpsLe a c) (m : LVal) :
    OpsLe a (c.setFunctionMask m) :=
  h.trans ⟨[Op.setFunctionMask m], rfl⟩

theorem OpsLe.setIMAnd {a c : Ctx} (h : OpsLe a c) (m t : LVal) :
    OpsLe a (c.setInternalMaskAnd m t) :=
  h.trans ⟨[Op.setInternalMaskAnd m t], rfl⟩

theorem OpsLe.setIMAndNot {a c : Ctx} (h : OpsLe a c) (m t : LVal) :
    OpsLe a (c.setInternalMaskAndNot m t) :=
  h.trans ⟨[Op.setInternalMaskAndNot m t], rfl⟩

theorem OpsLe.getVal {a c : Ctx} (h : OpsLe a c) (E : Env) (e : Expr) :
    OpsLe a ((Ctx.getValue E c e).2) :=
  h.trans ⟨[Op.evalExpr e], rfl⟩

theorem OpsLe.alloca {a c : Ctx} (h : OpsLe a c) (n : String) :
    OpsLe a ((c.allocaInst n).2) :=
  h.trans ⟨[Op.allocaOp n c.fresh], rfl⟩

theorem OpsLe.store {a c : Ctx} (h : OpsLe a c) (v p : LVal) :
    OpsLe a (c.storeInst v p) :=
  h.trans ⟨[Op.store v p], rfl⟩

theorem OpsLe.callOp {a c : Ctx} (h : OpsLe a c) (f : String) (args : List LVal) :
    OpsLe a (c.callInst f args) :=
  h.trans ⟨[Op.call f args], rfl⟩

theorem OpsLe.ite {a : Ctx} {P : Prop} [Decidable P] {f g : Ctx}
    (hf : OpsLe a f) (hg : OpsLe a g) : OpsLe a (if P then f else g) := by
  split
  · exact hf
  · exact hg

/-! Trace monotonicity of the initializer lowering: `lInitSymbol` only
ever appends operations to the context's trace. -/

mutual

theorem lInitSymbolSome_ops_mono (E : Env) (lv : LVal) (name : String) (ty : Typ)
    (e : Expr) (ctx : Ctx) :
    ∃ t, (lInitSymbolSome E lv name ty e ctx).ops = ctx.ops ++ t := by
  rw [lInitSymbolSome]
  split
  · exact lInitNonConverted_ops_mono E lv name ty e ctx
  · cases htc : E.tconv e ty with
    | none => simp only [htc]; exact lInitNonConverted_ops_mono E lv name ty e ctx
    | some ie =>
      simp only [htc, Ctx.getValue]
      split
      · exact ⟨_, by simp [Ctx.storeInst, Ctx.emit]; try rfl⟩
      · exact ⟨_, by simp [Ctx.emit]; try rfl⟩
termination_by 3 * sizeOf e + 1
decreasing_by all_goals (subst_vars; simp_wf; try omega)

theorem lInitNonConverted_ops_mono (E : Env) (lv : LVal) (name : String) (ty : Typ)
    (e : Expr) (ctx : Ctx) :
    ∃ t, (lInitNonConverted E lv name ty e ctx).ops = ctx.ops ++ t := by
  rw [lInitNonConverted.eq_def]
  split
  · split <;> exact ⟨_, by simp [Ctx.emit]; try rfl⟩
  · split <;> exact ⟨_, by simp [Ctx.emit]; try rfl⟩
  · split
    · exact ⟨_, by simp [Ctx.emit]; try rfl⟩
    · simp only [Ctx.getValue]
      split
      · exact ⟨_, by simp [Ctx.storeInst, Ctx.emit]; try rfl⟩
      · exact ⟨_, by simp [Ctx.emit]; try rfl⟩
  · split
    · split
      · exact ⟨_, by simp [Ctx.emit]; try rfl⟩
      · exact lInitElems_ops_mono E lv name _ _ 0 ctx
    · exact ⟨_, by simp [Ctx.emit]; try rfl⟩
  · split
    · split
      · exact ⟨_, by simp [Ctx.emit]; try rfl⟩
      · exact lInitElems_ops_mono E lv name _ _ 0 ctx
    · exact ⟨_, by simp [Ctx.emit]; try rfl⟩
  · split
    · split
      · exact ⟨_, by simp [Ctx.emit]; try rfl⟩
      · exact lInitElems_ops_mono E lv name _ _ 0 ctx
    · exact ⟨_, by simp [Ctx.emit]; try rfl⟩
termination_by 3 * sizeOf e
decreasing_by all_goals (subst_vars; simp_wf; try omega)

theorem lInitElems_ops_mono (E : Env) (lv : LVal) (name : String) (collType : Typ)
    (es : List Expr) (i : Nat) (ctx : Ctx) :
    ∃ t, (lInitElems E lv name collType es i ctx).ops = ctx.ops ++ t := by
  match es with
  | [] => exact ⟨[], by rw [lInitElems]; simp⟩
  | e :: rest =>
    rw [lInitElems]
    obtain ⟨t1, h1⟩ := lInitSymbolSome_ops_mono E (LVal.gep lv 0 i) name
      (collType.getElementType i) e ((ctx.getElementPtrInst lv 0 i).2)
    obtain ⟨t2, h2⟩ := lInitElems_ops_mono E lv name collType rest (i + 1)
      (lInitSymbolSome E (LVal.gep lv 0 i) name (collType.getElementType i) e
        ((ctx.getElementPtrInst lv 0 i).2))
    refine ⟨Op.gepOp lv 0 i :: t1 ++ t2, ?_⟩
    simp only [Ctx.getElementPtrInst, Ctx.emit] at h1 h2 ⊢
    rw [h2, h1]
    simp
termination_by 3 * sizeOf es
decreasing_by all_goals (subst_vars; simp_wf; try omega)

end

theorem OpsLe.bitcast {a c : Ctx} (h : OpsLe a c) (v : LVal) :
    OpsLe a ((c.bitCastInst v).2) :=
  h.trans ⟨[Op.bitcastOp v], rfl⟩

theorem OpsLe.gelem {a c : Ctx} (h : OpsLe a c) (b : LVal) (i j : Nat) :
    OpsLe a ((c.getElementPtrInst b i j).2) :=
  h.trans ⟨[Op.gepOp b i j], rfl⟩

theorem lProcessPrintArg_mono (E : Env) (e : Expr) (ctx : Ctx) (argTypes : String) :
    OpsLe ctx (lProcessPrintArg E e ctx argTypes).2.2 := by
  rw [lProcessPrintArg]
  dsimp only
  repeat' split
  all_goals
    first
    | exact OpsLe.refl ctx
    | exact (OpsLe.refl ctx).emit _
    | exact ((OpsLe.refl ctx).alloca "print_arg").getVal E _
    | exact (show OpsLe ctx (Ctx.getValue E (ctx.allocaInst "print_arg").2 _).2 from
        ((OpsLe.refl ctx).alloca "print_arg").getVal E _)
    | exact ((((OpsLe.refl ctx).alloca _).getVal _ _).store _ _).bitcast _

theorem printArgsLoop_mono (E : Env) (argPtrArray : LVal) (es : List Expr) :
    ∀ (i : Nat) (ctx : Ctx) (argTypes : String),
      OpsLe ctx (printArgsLoop E argPtrArray es i ctx argTypes).2 := by
  induction es with
  | nil => intro i ctx a; exact OpsLe.refl ctx
  | cons e rest ih =>
    intro i ctx a
    rw [printArgsLoop]
    rcases hres : lProcessPrintArg E e ctx a with ⟨p, aT, c1⟩
    have hc1 : OpsLe ctx c1 := by
      have hm := lProcessPrintArg_mono E e ctx a
      rw [hres] at hm
      exact hm
    cases p with
    | none => simp only [hres]; exact hc1
    | some ptr =>
      simp only [hres]
      exact ((hc1.gelem _ _ _).store _ _).trans (ih (i + 1) _ _)

theorem printStmtEmit_mono (E : Env) (format : String) (values : Option Expr)
    (ctx : Ctx) : OpsLe ctx (printStmtEmit E format values ctx) := by
  rw [printStmtEmit.eq_def]
  dsimp only
  cases values with
  | none => exact ((OpsLe.refl ctx).emit _).callOp _ _
  | some vs =>
    dsimp only
    have base : OpsLe ctx (((ctx.emit Op.setDebugPos).allocaInst "print_arg_ptrs").2.bitCastInst
        (((ctx.emit Op.setDebugPos).allocaInst "print_arg_ptrs").1)).2 :=
      (((OpsLe.refl ctx).emit _).alloca _).bitcast _
    split
    · rename_i es
      rcases hres : printArgsLoop E (((ctx.emit Op.setDebugPos).allocaInst "print_arg_ptrs").1)
          es 0 (((ctx.emit Op.setDebugPos).allocaInst "print_arg_ptrs").2.bitCastInst
            (((ctx.emit Op.setDebugPos).allocaInst "print_arg_ptrs").1)).2 "" with ⟨o, c1⟩
      have hc1 : OpsLe ctx c1 := by
        have hm := printArgsLoop_mono E
          (((ctx.emit Op.setDebugPos).allocaInst "print_arg_ptrs").1) es 0
          (((ctx.emit Op.setDebugPos).allocaInst "print_arg_ptrs").2.bitCastInst
            (((ctx.emit Op.setDebugPos).allocaInst "print_arg_ptrs").1)).2 ""
        rw [hres] at hm
        exact base.trans hm
      cases o with
      | none => exact hc1
      | some aT => exact hc1.callOp _ _
    · rcases hres : lProcessPrintArg E vs (((ctx.emit Op.setDebugPos).allocaInst
          "print_arg_ptrs").2.bitCastInst
            (((ctx.emit Op.setDebugPos).allocaInst "print_arg_ptrs").1)).2 ""
        with ⟨p, aT, c1⟩
      have hc1 : OpsLe ctx c1 := by
        have hm := lProcessPrintArg_mono E vs (((ctx.emit Op.setDebugPos).allocaInst
          "print_arg_ptrs").2.bitCastInst
            (((ctx.emit Op.setDebugPos).allocaInst "print_arg_ptrs").1)).2 ""
        rw [hres] at hm
        exact base.trans hm
      cases p with
      | none => exact hc1
      | some ptr => exact (((hc1.gelem _ _ _).store _ _)).callOp _ _

theorem assertStmtEmit_mono (E : Env) (message : String) (expr : Option Expr)
    (ctx : Ctx) : OpsLe ctx (assertStmtEmit E message expr ctx) := by
  rw [assertStmtEmit.eq_def]
  dsimp only
  repeat' split
  all_goals
    first
    | exact OpsLe.refl ctx
    | exact ((OpsLe.refl ctx).getVal _ _).callOp _ _
    | exact (show OpsLe ctx ((Ctx.getValue E ctx _).2.callInst _ _) from
        ((OpsLe.refl ctx).getVal _ _).callOp _ _)

theorem lInitSymbol_mono (E : Env) (lv : LVal) (name : String) (ty : Typ)
    (init : Option Expr) (ctx : Ctx) :
    OpsLe ctx (lInitSymbol E lv name ty init ctx) := by
  cases init with
  | none => exact (OpsLe.refl ctx).store _ _
  | some e => exact lInitSymbolSome_ops_mono E lv name ty e ctx

theorem declVarEmitTyped_mono (E : Env) (v : VarDecl) (type : Typ) (ctx : Ctx) :
    OpsLe ctx (declVarEmitTyped E v type ctx) := by
  rw [declVarEmitTyped.eq_def]
  dsimp only
  by_cases hcond : ((match type with | Typ.ref _ => true | _ => false) &&
      v.init.isNone) = true
  · rw [if_pos hcond]
    exact (OpsLe.refl ctx).emit _
  · rw [if_neg hcond]
    split
    · split
      · split
        · exact (((OpsLe.refl ctx).emit _).emit _).emit _
        · exact ((((OpsLe.refl ctx).emit _).emit _).emit _).emit _
      · exact (((OpsLe.refl ctx).emit _).emit _).emit _
    · exact (((((OpsLe.refl ctx).alloca _).emit _).emit _).emit _).trans
        (lInitSymbol_mono E ((ctx.allocaInst v.sym.name).1) v.sym.name type v.init _)

theorem declVarEmit_mono (E : Env) (v : VarDecl) (ctx : Ctx) :
    OpsLe ctx (declVarEmit E v ctx) := by
  rw [declVarEmit.eq_def]
  dsimp only
  repeat' split
  all_goals
    first
    | exact OpsLe.refl ctx
    | exact (((OpsLe.refl ctx).emit _).emit _).emit _
    | exact (((OpsLe.refl ctx).emit _).emit _).trans (declVarEmitTyped_mono E _ _ _)
    | exact ((((OpsLe.refl ctx).emit _).emit _).emit _).trans (declVarEmitTyped_mono E _ _ _)

theorem declVarsEmit_mono (E : Env) (vars : List VarDecl) :
    ∀ ctx : Ctx, OpsLe ctx (declVarsEmit E vars ctx) := by
  induction vars with
  | nil => intro ctx; exact OpsLe.refl ctx
  | cons v rest ih =>
    intro ctx
    rw [declVarsEmit]
    exact (declVarEmit_mono E v ctx).trans (ih _)

/-! Trace monotonicity of the statement emitters: every emitter only
appends to the operation trace. -/

theorem emitMaskMixedDone_mono (bDone : Nat) (ctx : Ctx) :
    OpsLe ctx (emitMaskMixedDone bDone ctx) :=
  (((OpsLe.refl ctx).branch _).setBB _).emit _

theorem doStmtEmitTest_mono (E : Env) (te : Expr) (uniformTest : Bool)
    (bloop bexit : Nat) (ctx : Ctx) :
    OpsLe ctx (doStmtEmitTest E te uniformTest bloop bexit ctx) := by
  rw [doStmtEmitTest.eq_def]
  dsimp only
  repeat' split
  all_goals
  repeat
    first
    | exact OpsLe.refl _
    | refine OpsLe.emit ?_ _
    | refine OpsLe.createBB ?_ _
    | refine OpsLe.setBB ?_ _
    | refine OpsLe.branch ?_ _
    | refine OpsLe.condBranch ?_ _ _ _
    | refine OpsLe.maskAll ?_ _ _
    | refine OpsLe.maskAny ?_ _ _
    | refine OpsLe.setIM ?_ _
    | refine OpsLe.setFM ?_ _
    | refine OpsLe.setIMAnd ?_ _ _
    | refine OpsLe.setIMAndNot ?_ _ _
    | refine OpsLe.getVal ?_ _ _
    | exact printStmtEmit_mono _ _ _ _
    | exact assertStmtEmit_mono _ _ _ _
    | refine OpsLe.trans ?_ (declVarsEmit_mono _ _ _)
    | refine OpsLe.trans ?_ (doStmtEmitTest_mono _ _ _ _ _ _)
    | refine OpsLe.trans ?_ (stmtEmitCode_mono _ _ _)
    | refine OpsLe.trans ?_ (stmtEmitOpt_mono _ _ _)
    | refine OpsLe.trans ?_ (stmtEmitList_mono _ _ _)
    | refine OpsLe.trans ?_ (lEmitIfStatements_mono _ _ _ _)
    | refine OpsLe.trans ?_ (emitMaskedTrueAndFalse_mono _ _ _ _ _ _)
    | refine OpsLe.trans ?_ (emitMaskMixed_mono _ _ _ _ _ _ _)
    | refine OpsLe.trans ?_ (emitMaskMixedAfterTrue_mono _ _ _ _ _ _ _)
    | refine OpsLe.trans ?_ (emitMaskMixedDone_mono _ _)
    | refine OpsLe.trans ?_ (emitMaskAllOn_mono _ _ _ _ _ _)
    | refine OpsLe.trans ?_ (emitVaryingIf_mono _ _ _ _ _ _)
    | refine OpsLe.trans ?_ (forEmitRest_mono _ _ _ _ _ _ _ _ _ _ _ _)
    | refine OpsLe.trans ?_ (ifStmtEmitRest_mono _ _ _ _ _ _)
    | refine OpsLe.trans ?_ (doStmtEmitRest_mono _ _ _ _ _)
    | refine OpsLe.trans ?_ (doStmtEmitLoop_mono _ _ _ _ _ _)
    | refine OpsLe.trans ?_ (doStmtEmitBody_mono _ _ _ _ _ _)
    | refine OpsLe.trans ?_ (forStmtEmitGuts_mono _ _ _ _ _ _ _)
    | refine OpsLe.trans ?_ (forStmtEmitTest_mono _ _ _ _ _ _ _ _ _ _ _ _)

mutual

theorem stmtEmitCode_mono (E : Env) (s : Stmt) (ctx : Ctx) :
    OpsLe ctx (stmtEmitCode E s ctx) := by
  rw [stmtEmitCode.eq_def]
  dsimp only
  repeat' split
  all_goals
  repeat
    first
    | exact OpsLe.refl _
    | refine OpsLe.emit ?_ _
    | refine OpsLe.createBB ?_ _
    | refine OpsLe.setBB ?_ _
    | refine OpsLe.branch ?_ _
    | refine OpsLe.condBranch ?_ _ _ _
    | refine OpsLe.maskAll ?_ _ _
    | refine OpsLe.maskAny ?_ _ _
    | refine OpsLe.setIM ?_ _
    | refine OpsLe.setFM ?_ _
    | refine OpsLe.setIMAnd ?_ _ _
    | refine OpsLe.setIMAndNot ?_ _ _
    | refine OpsLe.getVal ?_ _ _
    | exact printStmtEmit_mono _ _ _ _
    | exact assertStmtEmit_mono _ _ _ _
    | refine OpsLe.trans ?_ (declVarsEmit_mono _ _ _)
    | refine OpsLe.trans ?_ (doStmtEmitTest_mono _ _ _ _ _ _)
    | refine OpsLe.trans ?_ (stmtEmitCode_mono _ _ _)
    | refine OpsLe.trans ?_ (stmtEmitOpt_mono _ _ _)
    | refine OpsLe.trans ?_ (stmtEmitList_mono _ _ _)
    | refine OpsLe.trans ?_ (lEmitIfStatements_mono _ _ _ _)
    | refine OpsLe.trans ?_ (emitMaskedTrueAndFalse_mono _ _ _ _ _ _)
    | refine OpsLe.trans ?_ (emitMaskMixed_mono _ _ _ _ _ _ _)
    | refine OpsLe.trans ?_ (emitMaskMixedAfterTrue_mono _ _ _ _ _ _ _)
    | refine OpsLe.trans ?_ (emitMaskMixedDone_mono _ _)
    | refine OpsLe.trans ?_ (emitMaskAllOn_mono _ _ _ _ _ _)
    | refine OpsLe.trans ?_ (emitVaryingIf_mono _ _ _ _ _ _)
    | refine OpsLe.trans ?_ (forEmitRest_mono _ _ _ _ _ _ _ _ _ _ _ _)
    | refine OpsLe.trans ?_ (ifStmtEmitRest_mono _ _ _ _ _ _)
    | refine OpsLe.trans ?_ (doStmtEmitRest_mono _ _ _ _ _)
    | refine OpsLe.trans ?_ (doStmtEmitLoop_mono _ _ _ _ _ _)
    | refine OpsLe.trans ?_ (doStmtEmitBody_mono _ _ _ _ _ _)
    | refine OpsLe.trans ?_ (forStmtEmitGuts_mono _ _ _ _ _ _ _)
    | refine OpsLe.trans ?_ (forStmtEmitTest_mono _ _ _ _ _ _ _ _ _ _ _ _)
termination_by 5 * sizeOf s
decreasing_by all_goals (subst_vars; simp_wf; try omega)

theorem stmtEmitOpt_mono (E : Env) (s? : Option Stmt) (ctx : Ctx) :
    OpsLe ctx (stmtEmitOpt E s? ctx) := by
  rw [stmtEmitOpt.eq_def]
  try dsimp only
  repeat' split
  all_goals
  repeat
    first
    | exact OpsLe.refl _
    | refine OpsLe.emit ?_ _
    | refine OpsLe.createBB ?_ _
    | refine OpsLe.setBB ?_ _
    | refine OpsLe.branch ?_ _
    | refine OpsLe.condBranch ?_ _ _ _
    | refine OpsLe.maskAll ?_ _ _
    | refine OpsLe.maskAny ?_ _ _
    | refine OpsLe.setIM ?_ _
    | refine OpsLe.setFM ?_ _
    | refine OpsLe.setIMAnd ?_ _ _
    | refine OpsLe.setIMAndNot ?_ _ _
    | refine OpsLe.getVal ?_ _ _
    | exact printStmtEmit_mono _ _ _ _
    | exact assertStmtEmit_mono _ _ _ _
    | refine OpsLe.trans ?_ (declVarsEmit_mono _ _ _)
    | refine OpsLe.trans ?_ (doStmtEmitTest_mono _ _ _ _ _ _)
    | refine OpsLe.trans ?_ (stmtEmitCode_mono _ _ _)
    | refine OpsLe.trans ?_ (stmtEmitOpt_mono _ _ _)
    | refine OpsLe.trans ?_ (stmtEmitList_mono _ _ _)
    | refine OpsLe.trans ?_ (lEmitIfStatements_mono _ _ _ _)
    | refine OpsLe.trans ?_ (emitMaskedTrueAndFalse_mono _ _ _ _ _ _)
    | refine OpsLe.trans ?_ (emitMaskMixed_mono _ _ _ _ _ _ _)
    | refine OpsLe.trans ?_ (emitMaskMixedAfterTrue_mono _ _ _ _ _ _ _)
    | refine OpsLe.trans ?_ (emitMaskMixedDone_mono _ _)
    | refine OpsLe.trans ?_ (emitMaskAllOn_mono _ _ _ _ _ _)
    | refine OpsLe.trans ?_ (emitVaryingIf_mono _ _ _ _ _ _)
    | refine OpsLe.trans ?_ (forEmitRest_mono _ _ _ _ _ _ _ _ _ _ _ _)
    | refine OpsLe.trans ?_ (ifStmtEmitRest_mono _ _ _ _ _ _)
    | refine OpsLe.trans ?_ (doStmtEmitRest_mono _ _ _ _ _)
    | refine OpsLe.trans ?_ (doStmtEmitLoop_mono _ _ _ _ _ _)
    | refine OpsLe.trans ?_ (doStmtEmitBody_mono _ _ _ _ _ _)
    | refine OpsLe.trans ?_ (forStmtEmitGuts_mono _ _ _ _ _ _ _)
    | refine OpsLe.trans ?_ (forStmtEmitTest_mono _ _ _ _ _ _ _ _ _ _ _ _)
termination_by 5 * sizeOf s? + 1
decreasing_by all_goals (subst_vars; simp_wf; try omega)

theorem ifStmtEmitRest_mono (E : Env) (test : Option Expr)
    (trueStmts falseStmts : Option Stmt) (doAllCheck : Bool) (ctx : Ctx) :
    OpsLe ctx (ifStmtEmitRest E test trueStmts falseStmts doAllCheck ctx) := by
  rw [ifStmtEmitRest.eq_def]
  dsimp only
  repeat' split
  all_goals
  repeat
    first
    | exact OpsLe.refl _
    | refine OpsLe.emit ?_ _
    | refine OpsLe.createBB ?_ _
    | refine OpsLe.setBB ?_ _
    | refine OpsLe.branch ?_ _
    | refine OpsLe.condBranch ?_ _ _ _
    | refine OpsLe.maskAll ?_ _ _
    | refine OpsLe.maskAny ?_ _ _
    | refine OpsLe.setIM ?_ _
    | refine OpsLe.setFM ?_ _
    | refine OpsLe.setIMAnd ?_ _ _
    | refine OpsLe.setIMAndNot ?_ _ _
    | refine OpsLe.getVal ?_ _ _
    | exact printStmtEmit_mono _ _ _ _
    | exact assertStmtEmit_mono _ _ _ _
    | refine OpsLe.trans ?_ (declVarsEmit_mono _ _ _)
    | refine OpsLe.trans ?_ (doStmtEmitTest_mono _ _ _ _ _ _)
    | refine OpsLe.trans ?_ (stmtEmitCode_mono _ _ _)
    | refine OpsLe.trans ?_ (stmtEmitOpt_mono _ _ _)
    | refine OpsLe.trans ?_ (stmtEmitList_mono _ _ _)
    | refine OpsLe.trans ?_ (lEmitIfStatements_mono _ _ _ _)
    | refine OpsLe.trans ?_ (emitMaskedTrueAndFalse_mono _ _ _ _ _ _)
    | refine OpsLe.trans ?_ (emitMaskMixed_mono _ _ _ _ _ _ _)
    | refine OpsLe.trans ?_ (emitMaskMixedAfterTrue_mono _ _ _ _ _ _ _)
    | refine OpsLe.trans ?_ (emitMaskMixedDone_mono _ _)
    | refine OpsLe.trans ?_ (emitMaskAllOn_mono _ _ _ _ _ _)
    | refine OpsLe.trans ?_ (emitVaryingIf_mono _ _ _ _ _ _)
    | refine OpsLe.trans ?_ (forEmitRest_mono _ _ _ _ _ _ _ _ _ _ _ _)
    | refine OpsLe.trans ?_ (ifStmtEmitRest_mono _ _ _ _ _ _)
    | refine OpsLe.trans ?_ (doStmtEmitRest_mono _ _ _ _ _)
    | refine OpsLe.trans ?_ (doStmtEmitLoop_mono _ _ _ _ _ _)
    | refine OpsLe.trans ?_ (doStmtEmitBody_mono _ _ _ _ _ _)
    | refine OpsLe.trans ?_ (forStmtEmitGuts_mono _ _ _ _ _ _ _)
    | refine OpsLe.trans ?_ (forStmtEmitTest_mono _ _ _ _ _ _ _ _ _ _ _ _)
termination_by 5 * (sizeOf test + sizeOf trueStmts + sizeOf falseStmts) + 10
decreasing_by all_goals (subst_vars; simp_wf; try omega)

theorem doStmtEmitRest_mono (E : Env) (testExpr : Option Expr) (bodyStmts : Option Stmt)
    (doCoherentCheck : Bool) (ctx : Ctx) :
    OpsLe ctx (doStmtEmitRest E testExpr bodyStmts doCoherentCheck ctx) := by
  rw [doStmtEmitRest.eq_def]
  try dsimp only
  repeat' split
  all_goals
  repeat
    first
    | exact OpsLe.refl _
    | refine OpsLe.emit ?_ _
    | refine OpsLe.createBB ?_ _
    | refine OpsLe.setBB ?_ _
    | refine OpsLe.branch ?_ _
    | refine OpsLe.condBranch ?_ _ _ _
    | refine OpsLe.maskAll ?_ _ _
    | refine OpsLe.maskAny ?_ _ _
    | refine OpsLe.setIM ?_ _
    | refine OpsLe.setFM ?_ _
    | refine OpsLe.setIMAnd ?_ _ _
    | refine OpsLe.setIMAndNot ?_ _ _
    | refine OpsLe.getVal ?_ _ _
    | exact printStmtEmit_mono _ _ _ _
    | exact assertStmtEmit_mono _ _ _ _
    | refine OpsLe.trans ?_ (declVarsEmit_mono _ _ _)
    | refine OpsLe.trans ?_ (doStmtEmitTest_mono _ _ _ _ _ _)
    | refine OpsLe.trans ?_ (stmtEmitCode_mono _ _ _)
    | refine OpsLe.trans ?_ (stmtEmitOpt_mono _ _ _)
    | refine OpsLe.trans ?_ (stmtEmitList_mono _ _ _)
    | refine OpsLe.trans ?_ (lEmitIfStatements_mono _ _ _ _)
    | refine OpsLe.trans ?_ (emitMaskedTrueAndFalse_mono _ _ _ _ _ _)
    | refine OpsLe.trans ?_ (emitMaskMixed_mono _ _ _ _ _ _ _)
    | refine OpsLe.trans ?_ (emitMaskMixedAfterTrue_mono _ _ _ _ _ _ _)
    | refine OpsLe.trans ?_ (emitMaskMixedDone_mono _ _)
    | refine OpsLe.trans ?_ (emitMaskAllOn_mono _ _ _ _ _ _)
    | refine OpsLe.trans ?_ (emitVaryingIf_mono _ _ _ _ _ _)
    | refine OpsLe.trans ?_ (forEmitRest_mono _ _ _ _ _ _ _ _ _ _ _ _)
    | refine OpsLe.trans ?_ (ifStmtEmitRest_mono _ _ _ _ _ _)
    | refine OpsLe.trans ?_ (doStmtEmitRest_mono _ _ _ _ _)
    | refine OpsLe.trans ?_ (doStmtEmitLoop_mono _ _ _ _ _ _)
    | refine OpsLe.trans ?_ (doStmtEmitBody_mono _ _ _ _ _ _)
    | refine OpsLe.trans ?_ (forStmtEmitGuts_mono _ _ _ _ _ _ _)
    | refine OpsLe.trans ?_ (forStmtEmitTest_mono _ _ _ _ _ _ _ _ _ _ _ _)
termination_by 5 * (sizeOf testExpr + sizeOf bodyStmts) + 5
decreasing_by all_goals (subst_vars; simp_wf; try omega)

theorem doStmtEmitLoop_mono (E : Env) (te : Expr) (bodyStmts : Option Stmt)
    (doCoherentCheck uniformTest : Bool) (ctx : Ctx) :
    OpsLe ctx (doStmtEmitLoop E te bodyStmts doCoherentCheck uniformTest ctx) := by
  rw [doStmtEmitLoop.eq_def]
  dsimp only
  repeat' split
  all_goals
  repeat
    first
    | exact OpsLe.refl _
    | refine OpsLe.emit ?_ _
    | refine OpsLe.createBB ?_ _
    | refine OpsLe.setBB ?_ _
    | refine OpsLe.branch ?_ _
    | refine OpsLe.condBranch ?_ _ _ _
    | refine OpsLe.maskAll ?_ _ _
    | refine OpsLe.maskAny ?_ _ _
    | refine OpsLe.setIM ?_ _
    | refine OpsLe.setFM ?_ _
    | refine OpsLe.setIMAnd ?_ _ _
    | refine OpsLe.setIMAndNot ?_ _ _
    | refine OpsLe.getVal ?_ _ _
    | exact printStmtEmit_mono _ _ _ _
    | exact assertStmtEmit_mono _ _ _ _
    | refine OpsLe.trans ?_ (declVarsEmit_mono _ _ _)
    | refine OpsLe.trans ?_ (doStmtEmitTest_mono _ _ _ _ _ _)
    | refine OpsLe.trans ?_ (stmtEmitCode_mono _ _ _)
    | refine OpsLe.trans ?_ (stmtEmitOpt_mono _ _ _)
    | refine OpsLe.trans ?_ (stmtEmitList_mono _ _ _)
    | refine OpsLe.trans ?_ (lEmitIfStatements_mono _ _ _ _)
    | refine OpsLe.trans ?_ (emitMaskedTrueAndFalse_mono _ _ _ _ _ _)
    | refine OpsLe.trans ?_ (emitMaskMixed_mono _ _ _ _ _ _ _)
    | refine OpsLe.trans ?_ (emitMaskMixedAfterTrue_mono _ _ _ _ _ _ _)
    | refine OpsLe.trans ?_ (emitMaskMixedDone_mono _ _)
    | refine OpsLe.trans ?_ (emitMaskAllOn_mono _ _ _ _ _ _)
    | refine OpsLe.trans ?_ (emitVaryingIf_mono _ _ _ _ _ _)
    | refine OpsLe.trans ?_ (forEmitRest_mono _ _ _ _ _ _ _ _ _ _ _ _)
    | refine OpsLe.trans ?_ (ifStmtEmitRest_mono _ _ _ _ _ _)
    | refine OpsLe.trans ?_ (doStmtEmitRest_mono _ _ _ _ _)
    | refine OpsLe.trans ?_ (doStmtEmitLoop_mono _ _ _ _ _ _)
    | refine OpsLe.trans ?_ (doStmtEmitBody_mono _ _ _ _ _ _)
    | refine OpsLe.trans ?_ (forStmtEmitGuts_mono _ _ _ _ _ _ _)
    | refine OpsLe.trans ?_ (forStmtEmitTest_mono _ _ _ _ _ _ _ _ _ _ _ _)
termination_by 5 * sizeOf bodyStmts + 3
decreasing_by all_goals (subst_vars; simp_wf; try omega)

theorem doStmtEmitBody_mono (E : Env) (bodyStmts : Option Stmt)
    (doCoherentCheck uniformTest : Bool) (btest : Nat) (ctx : Ctx) :
    OpsLe ctx (doStmtEmitBody E bodyStmts doCoherentCheck uniformTest btest ctx) := by
  rw [doStmtEmitBody.eq_def]
  dsimp only
  repeat' split
  all_goals
  repeat
    first
    | exact OpsLe.refl _
    | refine OpsLe.emit ?_ _
    | refine OpsLe.createBB ?_ _
    | refine OpsLe.setBB ?_ _
    | refine OpsLe.branch ?_ _
    | refine OpsLe.condBranch ?_ _ _ _
    | refine OpsLe.maskAll ?_ _ _
    | refine OpsLe.maskAny ?_ _ _
    | refine OpsLe.setIM ?_ _
    | refine OpsLe.setFM ?_ _
    | refine OpsLe.setIMAnd ?_ _ _
    | refine OpsLe.setIMAndNot ?_ _ _
    | refine OpsLe.getVal ?_ _ _
    | exact printStmtEmit_mono _ _ _ _
    | exact assertStmtEmit_mono _ _ _ _
    | refine OpsLe.trans ?_ (declVarsEmit_mono _ _ _)
    | refine OpsLe.trans ?_ (doStmtEmitTest_mono _ _ _ _ _ _)
    | refine OpsLe.trans ?_ (stmtEmitCode_mono _ _ _)
    | refine OpsLe.trans ?_ (stmtEmitOpt_mono _ _ _)
    | refine OpsLe.trans ?_ (stmtEmitList_mono _ _ _)
    | refine OpsLe.trans ?_ (lEmitIfStatements_mono _ _ _ _)
    | refine OpsLe.trans ?_ (emitMaskedTrueAndFalse_mono _ _ _ _ _ _)
    | refine OpsLe.trans ?_ (emitMaskMixed_mono _ _ _ _ _ _ _)
    | refine OpsLe.trans ?_ (emitMaskMixedAfterTrue_mono _ _ _ _ _ _ _)
    | refine OpsLe.trans ?_ (emitMaskMixedDone_mono _ _)
    | refine OpsLe.trans ?_ (emitMaskAllOn_mono _ _ _ _ _ _)
    | refine OpsLe.trans ?_ (emitVaryingIf_mono _ _ _ _ _ _)
    | refine OpsLe.trans ?_ (forEmitRest_mono _ _ _ _ _ _ _ _ _ _ _ _)
    | refine OpsLe.trans ?_ (ifStmtEmitRest_mono _ _ _ _ _ _)
    | refine OpsLe.trans ?_ (doStmtEmitRest_mono _ _ _ _ _)
    | refine OpsLe.trans ?_ (doStmtEmitLoop_mono _ _ _ _ _ _)
    | refine OpsLe.trans ?_ (doStmtEmitBody_mono _ _ _ _ _ _)
    | refine OpsLe.trans ?_ (forStmtEmitGuts_mono _ _ _ _ _ _ _)
    | refine OpsLe.trans ?_ (forStmtEmitTest_mono _ _ _ _ _ _ _ _ _ _ _ _)
termination_by 5 * sizeOf bodyStmts + 2
decreasing_by all_goals (subst_vars; simp_wf; try omega)

theorem forStmtEmitGuts_mono (E : Env) (init : Option Stmt) (test : Option Expr)
    (step stmts : Option Stmt) (doCoherentCheck : Bool) (ctx : Ctx) :
    OpsLe ctx (forStmtEmitGuts E init test step stmts doCoherentCheck ctx) := by
  rw [forStmtEmitGuts.eq_def]
  dsimp only
  repeat' split
  all_goals
  repeat
    first
    | exact OpsLe.refl _
    | refine OpsLe.emit ?_ _
    | refine OpsLe.createBB ?_ _
    | refine OpsLe.setBB ?_ _
    | refine OpsLe.branch ?_ _
    | refine OpsLe.condBranch ?_ _ _ _
    | refine OpsLe.maskAll ?_ _ _
    | refine OpsLe.maskAny ?_ _ _
    | refine OpsLe.setIM ?_ _
    | refine OpsLe.setFM ?_ _
    | refine OpsLe.setIMAnd ?_ _ _
    | refine OpsLe.setIMAndNot ?_ _ _
    | refine OpsLe.getVal ?_ _ _
    | exact printStmtEmit_mono _ _ _ _
    | exact assertStmtEmit_mono _ _ _ _
    | refine OpsLe.trans ?_ (declVarsEmit_mono _ _ _)
    | refine OpsLe.trans ?_ (doStmtEmitTest_mono _ _ _ _ _ _)
    | refine OpsLe.trans ?_ (stmtEmitCode_mono _ _ _)
    | refine OpsLe.trans ?_ (stmtEmitOpt_mono _ _ _)
    | refine OpsLe.trans ?_ (stmtEmitList_mono _ _ _)
    | refine OpsLe.trans ?_ (lEmitIfStatements_mono _ _ _ _)
    | refine OpsLe.trans ?_ (emitMaskedTrueAndFalse_mono _ _ _ _ _ _)
    | refine OpsLe.trans ?_ (emitMaskMixed_mono _ _ _ _ _ _ _)
    | refine OpsLe.trans ?_ (emitMaskMixedAfterTrue_mono _ _ _ _ _ _ _)
    | refine OpsLe.trans ?_ (emitMaskMixedDone_mono _ _)
    | refine OpsLe.trans ?_ (emitMaskAllOn_mono _ _ _ _ _ _)
    | refine OpsLe.trans ?_ (emitVaryingIf_mono _ _ _ _ _ _)
    | refine OpsLe.trans ?_ (forEmitRest_mono _ _ _ _ _ _ _ _ _ _ _ _)
    | refine OpsLe.trans ?_ (ifStmtEmitRest_mono _ _ _ _ _ _)
    | refine OpsLe.trans ?_ (doStmtEmitRest_mono _ _ _ _ _)
    | refine OpsLe.trans ?_ (doStmtEmitLoop_mono _ _ _ _ _ _)
    | refine OpsLe.trans ?_ (doStmtEmitBody_mono _ _ _ _ _ _)
    | refine OpsLe.trans ?_ (forStmtEmitGuts_mono _ _ _ _ _ _ _)
    | refine OpsLe.trans ?_ (forStmtEmitTest_mono _ _ _ _ _ _ _ _ _ _ _ _)
termination_by 5 * (sizeOf init + sizeOf test + sizeOf step + sizeOf stmts) + 6
decreasing_by all_goals (subst_vars; simp_wf; try omega)

theorem forStmtEmitTest_mono (E : Env) (init : Option Stmt) (test : Option Expr)
    (step stmts : Option Stmt) (doCoherentCheck uniformTest : Bool)
    (btest bstep bloop bexit : Nat) (ctx : Ctx) :
    OpsLe ctx (forStmtEmitTest E init test step stmts doCoherentCheck uniformTest
      btest bstep bloop bexit ctx) := by
  rw [forStmtEmitTest.eq_def]
  try dsimp only
  repeat' split
  all_goals
  repeat
    first
    | exact OpsLe.refl _
    | refine OpsLe.emit ?_ _
    | refine OpsLe.createBB ?_ _
    | refine OpsLe.setBB ?_ _
    | refine OpsLe.branch ?_ _
    | refine OpsLe.condBranch ?_ _ _ _
    | refine OpsLe.maskAll ?_ _ _
    | refine OpsLe.maskAny ?_ _ _
    | refine OpsLe.setIM ?_ _
    | refine OpsLe.setFM ?_ _
    | refine OpsLe.setIMAnd ?_ _ _
    | refine OpsLe.setIMAndNot ?_ _ _
    | refine OpsLe.getVal ?_ _ _
    | exact printStmtEmit_mono _ _ _ _
    | exact assertStmtEmit_mono _ _ _ _
    | refine OpsLe.trans ?_ (declVarsEmit_mono _ _ _)
    | refine OpsLe.trans ?_ (doStmtEmitTest_mono _ _ _ _ _ _)
    | refine OpsLe.trans ?_ (stmtEmitCode_mono _ _ _)
    | refine OpsLe.trans ?_ (stmtEmitOpt_mono _ _ _)
    | refine OpsLe.trans ?_ (stmtEmitList_mono _ _ _)
    | refine OpsLe.trans ?_ (lEmitIfStatements_mono _ _ _ _)
    | refine OpsLe.trans ?_ (emitMaskedTrueAndFalse_mono _ _ _ _ _ _)
    | refine OpsLe.trans ?_ (emitMaskMixed_mono _ _ _ _ _ _ _)
    | refine OpsLe.trans ?_ (emitMaskMixedAfterTrue_mono _ _ _ _ _ _ _)
    | refine OpsLe.trans ?_ (emitMaskMixedDone_mono _ _)
    | refine OpsLe.trans ?_ (emitMaskAllOn_mono _ _ _ _ _ _)
    | refine OpsLe.trans ?_ (emitVaryingIf_mono _ _ _ _ _ _)
    | refine OpsLe.trans ?_ (forEmitRest_mono _ _ _ _ _ _ _ _ _ _ _ _)
    | refine OpsLe.trans ?_ (ifStmtEmitRest_mono _ _ _ _ _ _)
    | refine OpsLe.trans ?_ (doStmtEmitRest_mono _ _ _ _ _)
    | refine OpsLe.trans ?_ (doStmtEmitLoop_mono _ _ _ _ _ _)
    | refine OpsLe.trans ?_ (doStmtEmitBody_mono _ _ _ _ _ _)
    | refine OpsLe.trans ?_ (forStmtEmitGuts_mono _ _ _ _ _ _ _)
    | refine OpsLe.trans ?_ (forStmtEmitTest_mono _ _ _ _ _ _ _ _ _ _ _ _)
termination_by 5 * (sizeOf init + sizeOf step + sizeOf stmts) + 5
decreasing_by all_goals (subst_vars; simp_wf; try omega)

theorem stmtEmitList_mono (E : Env) (ss : List (Option Stmt)) (ctx : Ctx) :
    OpsLe ctx (stmtEmitList E ss ctx) := by
  rw [stmtEmitList.eq_def]
  try dsimp only
  repeat' split
  all_goals
  repeat
    first
    | exact OpsLe.refl _
    | refine OpsLe.emit ?_ _
    | refine OpsLe.createBB ?_ _
    | refine OpsLe.setBB ?_ _
    | refine OpsLe.branch ?_ _
    | refine OpsLe.condBranch ?_ _ _ _
    | refine OpsLe.maskAll ?_ _ _
    | refine OpsLe.maskAny ?_ _ _
    | refine OpsLe.setIM ?_ _
    | refine OpsLe.setFM ?_ _
    | refine OpsLe.setIMAnd ?_ _ _
    | refine OpsLe.setIMAndNot ?_ _ _
    | refine OpsLe.getVal ?_ _ _
    | exact printStmtEmit_mono _ _ _ _
    | exact assertStmtEmit_mono _ _ _ _
    | refine OpsLe.trans ?_ (declVarsEmit_mono _ _ _)
    | refine OpsLe.trans ?_ (doStmtEmitTest_mono _ _ _ _ _ _)
    | refine OpsLe.trans ?_ (stmtEmitCode_mono _ _ _)
    | refine OpsLe.trans ?_ (stmtEmitOpt_mono _ _ _)
    | refine OpsLe.trans ?_ (stmtEmitList_mono _ _ _)
    | refine OpsLe.trans ?_ (lEmitIfStatements_mono _ _ _ _)
    | refine OpsLe.trans ?_ (emitMaskedTrueAndFalse_mono _ _ _ _ _ _)
    | refine OpsLe.trans ?_ (emitMaskMixed_mono _ _ _ _ _ _ _)
    | refine OpsLe.trans ?_ (emitMaskMixedAfterTrue_mono _ _ _ _ _ _ _)
    | refine OpsLe.trans ?_ (emitMaskMixedDone_mono _ _)
    | refine OpsLe.trans ?_ (emitMaskAllOn_mono _ _ _ _ _ _)
    | refine OpsLe.trans ?_ (emitVaryingIf_mono _ _ _ _ _ _)
    | refine OpsLe.trans ?_ (forEmitRest_mono _ _ _ _ _ _ _ _ _ _ _ _)
    | refine OpsLe.trans ?_ (ifStmtEmitRest_mono _ _ _ _ _ _)
    | refine OpsLe.trans ?_ (doStmtEmitRest_mono _ _ _ _ _)
    | refine OpsLe.trans ?_ (doStmtEmitLoop_mono _ _ _ _ _ _)
    | refine OpsLe.trans ?_ (doStmtEmitBody_mono _ _ _ _ _ _)
    | refine OpsLe.trans ?_ (forStmtEmitGuts_mono _ _ _ _ _ _ _)
    | refine OpsLe.trans ?_ (forStmtEmitTest_mono _ _ _ _ _ _ _ _ _ _ _ _)
termination_by 5 * sizeOf ss + 1
decreasing_by all_goals (subst_vars; simp_wf; try omega)

theorem lEmitIfStatements_mono (E : Env) (stmts : Option Stmt) (label : String)
    (ctx : Ctx) :
    OpsLe ctx (lEmitIfStatements E stmts label ctx) := by
  rw [lEmitIfStatements.eq_def]
  try dsimp only
  repeat' split
  all_goals
  repeat
    first
    | exact OpsLe.refl _
    | refine OpsLe.emit ?_ _
    | refine OpsLe.createBB ?_ _
    | refine OpsLe.setBB ?_ _
    | refine OpsLe.branch ?_ _
    | refine OpsLe.condBranch ?_ _ _ _
    | refine OpsLe.maskAll ?_ _ _
    | refine OpsLe.maskAny ?_ _ _
    | refine OpsLe.setIM ?_ _
    | refine OpsLe.setFM ?_ _
    | refine OpsLe.setIMAnd ?_ _ _
    | refine OpsLe.setIMAndNot ?_ _ _
    | refine OpsLe.getVal ?_ _ _
    | exact printStmtEmit_mono _ _ _ _
    | exact assertStmtEmit_mono _ _ _ _
    | refine OpsLe.trans ?_ (declVarsEmit_mono _ _ _)
    | refine OpsLe.trans ?_ (doStmtEmitTest_mono _ _ _ _ _ _)
    | refine OpsLe.trans ?_ (stmtEmitCode_mono _ _ _)
    | refine OpsLe.trans ?_ (stmtEmitOpt_mono _ _ _)
    | refine OpsLe.trans ?_ (stmtEmitList_mono _ _ _)
    | refine OpsLe.trans ?_ (lEmitIfStatements_mono _ _ _ _)
    | refine OpsLe.trans ?_ (emitMaskedTrueAndFalse_mono _ _ _ _ _ _)
    | refine OpsLe.trans ?_ (emitMaskMixed_mono _ _ _ _ _ _ _)
    | refine OpsLe.trans ?_ (emitMaskMixedAfterTrue_mono _ _ _ _ _ _ _)
    | refine OpsLe.trans ?_ (emitMaskMixedDone_mono _ _)
    | refine OpsLe.trans ?_ (emitMaskAllOn_mono _ _ _ _ _ _)
    | refine OpsLe.trans ?_ (emitVaryingIf_mono _ _ _ _ _ _)
    | refine OpsLe.trans ?_ (forEmitRest_mono _ _ _ _ _ _ _ _ _ _ _ _)
    | refine OpsLe.trans ?_ (ifStmtEmitRest_mono _ _ _ _ _ _)
    | refine OpsLe.trans ?_ (doStmtEmitRest_mono _ _ _ _ _)
    | refine OpsLe.trans ?_ (doStmtEmitLoop_mono _ _ _ _ _ _)
    | refine OpsLe.trans ?_ (doStmtEmitBody_mono _ _ _ _ _ _)
    | refine OpsLe.trans ?_ (forStmtEmitGuts_mono _ _ _ _ _ _ _)
    | refine OpsLe.trans ?_ (forStmtEmitTest_mono _ _ _ _ _ _ _ _ _ _ _ _)
termination_by 5 * sizeOf stmts + 1
decreasing_by all_goals (subst_vars; simp_wf; try omega)

theorem emitMaskedTrueAndFalse_mono (E : Env) (ts fs : Option Stmt)
    (oldMask test : LVal) (ctx : Ctx) :
    OpsLe ctx (emitMaskedTrueAndFalse E ts fs oldMask test ctx) := by
  rw [emitMaskedTrueAndFalse.eq_def]
  dsimp only
  repeat' split
  all_goals
  repeat
    first
    | exact OpsLe.refl _
    | refine OpsLe.emit ?_ _
    | refine OpsLe.createBB ?_ _
    | refine OpsLe.setBB ?_ _
    | refine OpsLe.branch ?_ _
    | refine OpsLe.condBranch ?_ _ _ _
    | refine OpsLe.maskAll ?_ _ _
    | refine OpsLe.maskAny ?_ _ _
    | refine OpsLe.setIM ?_ _
    | refine OpsLe.setFM ?_ _
    | refine OpsLe.setIMAnd ?_ _ _
    | refine OpsLe.setIMAndNot ?_ _ _
    | refine OpsLe.getVal ?_ _ _
    | exact printStmtEmit_mono _ _ _ _
    | exact assertStmtEmit_mono _ _ _ _
    | refine OpsLe.trans ?_ (declVarsEmit_mono _ _ _)
    | refine OpsLe.trans ?_ (doStmtEmitTest_mono _ _ _ _ _ _)
    | refine OpsLe.trans ?_ (stmtEmitCode_mono _ _ _)
    | refine OpsLe.trans ?_ (stmtEmitOpt_mono _ _ _)
    | refine OpsLe.trans ?_ (stmtEmitList_mono _ _ _)
    | refine OpsLe.trans ?_ (lEmitIfStatements_mono _ _ _ _)
    | refine OpsLe.trans ?_ (emitMaskedTrueAndFalse_mono _ _ _ _ _ _)
    | refine OpsLe.trans ?_ (emitMaskMixed_mono _ _ _ _ _ _ _)
    | refine OpsLe.trans ?_ (emitMaskMixedAfterTrue_mono _ _ _ _ _ _ _)
    | refine OpsLe.trans ?_ (emitMaskMixedDone_mono _ _)
    | refine OpsLe.trans ?_ (emitMaskAllOn_mono _ _ _ _ _ _)
    | refine OpsLe.trans ?_ (emitVaryingIf_mono _ _ _ _ _ _)
    | refine OpsLe.trans ?_ (forEmitRest_mono _ _ _ _ _ _ _ _ _ _ _ _)
    | refine OpsLe.trans ?_ (ifStmtEmitRest_mono _ _ _ _ _ _)
    | refine OpsLe.trans ?_ (doStmtEmitRest_mono _ _ _ _ _)
    | refine OpsLe.trans ?_ (doStmtEmitLoop_mono _ _ _ _ _ _)
    | refine OpsLe.trans ?_ (doStmtEmitBody_mono _ _ _ _ _ _)
    | refine OpsLe.trans ?_ (forStmtEmitGuts_mono _ _ _ _ _ _ _)
    | refine OpsLe.trans ?_ (forStmtEmitTest_mono _ _ _ _ _ _ _ _ _ _ _ _)
termination_by 5 * (sizeOf ts + sizeOf fs) + 2
decreasing_by all_goals (subst_vars; simp_wf; try omega)

theorem emitMaskMixedAfterTrue_mono (E : Env) (falseStmts : Option Stmt)
    (oldMask ltest : LVal) (bNext0 bDone : Nat) (ctx : Ctx) :
    OpsLe ctx (emitMaskMixedAfterTrue E falseStmts oldMask ltest bNext0 bDone ctx) := by
  rw [emitMaskMixedAfterTrue.eq_def]
  dsimp only
  repeat' split
  all_goals
  repeat
    first
    | exact OpsLe.refl _
    | refine OpsLe.emit ?_ _
    | refine OpsLe.createBB ?_ _
    | refine OpsLe.setBB ?_ _
    | refine OpsLe.branch ?_ _
    | refine OpsLe.condBranch ?_ _ _ _
    | refine OpsLe.maskAll ?_ _ _
    | refine OpsLe.maskAny ?_ _ _
    | refine OpsLe.setIM ?_ _
    | refine OpsLe.setFM ?_ _
    | refine OpsLe.setIMAnd ?_ _ _
    | refine OpsLe.setIMAndNot ?_ _ _
    | refine OpsLe.getVal ?_ _ _
    | exact printStmtEmit_mono _ _ _ _
    | exact assertStmtEmit_mono _ _ _ _
    | refine OpsLe.trans ?_ (declVarsEmit_mono _ _ _)
    | refine OpsLe.trans ?_ (doStmtEmitTest_mono _ _ _ _ _ _)
    | refine OpsLe.trans ?_ (stmtEmitCode_mono _ _ _)
    | refine OpsLe.trans ?_ (stmtEmitOpt_mono _ _ _)
    | refine OpsLe.trans ?_ (stmtEmitList_mono _ _ _)
    | refine OpsLe.trans ?_ (lEmitIfStatements_mono _ _ _ _)
    | refine OpsLe.trans ?_ (emitMaskedTrueAndFalse_mono _ _ _ _ _ _)
    | refine OpsLe.trans ?_ (emitMaskMixed_mono _ _ _ _ _ _ _)
    | refine OpsLe.trans ?_ (emitMaskMixedAfterTrue_mono _ _ _ _ _ _ _)
    | refine OpsLe.trans ?_ (emitMaskMixedDone_mono _ _)
    | refine OpsLe.trans ?_ (emitMaskAllOn_mono _ _ _ _ _ _)
    | refine OpsLe.trans ?_ (emitVaryingIf_mono _ _ _ _ _ _)
    | refine OpsLe.trans ?_ (forEmitRest_mono _ _ _ _ _ _ _ _ _ _ _ _)
    | refine OpsLe.trans ?_ (ifStmtEmitRest_mono _ _ _ _ _ _)
    | refine OpsLe.trans ?_ (doStmtEmitRest_mono _ _ _ _ _)
    | refine OpsLe.trans ?_ (doStmtEmitLoop_mono _ _ _ _ _ _)
    | refine OpsLe.trans ?_ (doStmtEmitBody_mono _ _ _ _ _ _)
    | refine OpsLe.trans ?_ (forStmtEmitGuts_mono _ _ _ _ _ _ _)
    | refine OpsLe.trans ?_ (forStmtEmitTest_mono _ _ _ _ _ _ _ _ _ _ _ _)
termination_by 5 * sizeOf falseStmts + 2
decreasing_by all_goals (subst_vars; simp_wf; try omega)

theorem emitMaskMixed_mono (E : Env) (ts fs : Option Stmt) (oldMask ltest : LVal)
    (bDone : Nat) (ctx : Ctx) :
    OpsLe ctx (emitMaskMixed E ts fs oldMask ltest bDone ctx) := by
  rw [emitMaskMixed.eq_def]
  dsimp only
  repeat' split
  all_goals
  repeat
    first
    | exact OpsLe.refl _
    | refine OpsLe.emit ?_ _
    | refine OpsLe.createBB ?_ _
    | refine OpsLe.setBB ?_ _
    | refine OpsLe.branch ?_ _
    | refine OpsLe.condBranch ?_ _ _ _
    | refine OpsLe.maskAll ?_ _ _
    | refine OpsLe.maskAny ?_ _ _
    | refine OpsLe.setIM ?_ _
    | refine OpsLe.setFM ?_ _
    | refine OpsLe.setIMAnd ?_ _ _
    | refine OpsLe.setIMAndNot ?_ _ _
    | refine OpsLe.getVal ?_ _ _
    | exact printStmtEmit_mono _ _ _ _
    | exact assertStmtEmit_mono _ _ _ _
    | refine OpsLe.trans ?_ (declVarsEmit_mono _ _ _)
    | refine OpsLe.trans ?_ (doStmtEmitTest_mono _ _ _ _ _ _)
    | refine OpsLe.trans ?_ (stmtEmitCode_mono _ _ _)
    | refine OpsLe.trans ?_ (stmtEmitOpt_mono _ _ _)
    | refine OpsLe.trans ?_ (stmtEmitList_mono _ _ _)
    | refine OpsLe.trans ?_ (lEmitIfStatements_mono _ _ _ _)
    | refine OpsLe.trans ?_ (emitMaskedTrueAndFalse_mono _ _ _ _ _ _)
    | refine OpsLe.trans ?_ (emitMaskMixed_mono _ _ _ _ _ _ _)
    | refine OpsLe.trans ?_ (emitMaskMixedAfterTrue_mono _ _ _ _ _ _ _)
    | refine OpsLe.trans ?_ (emitMaskMixedDone_mono _ _)
    | refine OpsLe.trans ?_ (emitMaskAllOn_mono _ _ _ _ _ _)
    | refine OpsLe.trans ?_ (emitVaryingIf_mono _ _ _ _ _ _)
    | refine OpsLe.trans ?_ (forEmitRest_mono _ _ _ _ _ _ _ _ _ _ _ _)
    | refine OpsLe.trans ?_ (ifStmtEmitRest_mono _ _ _ _ _ _)
    | refine OpsLe.trans ?_ (doStmtEmitRest_mono _ _ _ _ _)
    | refine OpsLe.trans ?_ (doStmtEmitLoop_mono _ _ _ _ _ _)
    | refine OpsLe.trans ?_ (doStmtEmitBody_mono _ _ _ _ _ _)
    | refine OpsLe.trans ?_ (forStmtEmitGuts_mono _ _ _ _ _ _ _)
    | refine OpsLe.trans ?_ (forStmtEmitTest_mono _ _ _ _ _ _ _ _ _ _ _ _)
termination_by 5 * (sizeOf ts + sizeOf fs) + 3
decreasing_by all_goals (subst_vars; simp_wf; try omega)

theorem emitMaskAllOn_mono (E : Env) (ts fs : Option Stmt) (ltest : LVal)
    (bDone : Nat) (ctx : Ctx) :
    OpsLe ctx (emitMaskAllOn E ts fs ltest bDone ctx) := by
  rw [emitMaskAllOn.eq_def]
  dsimp only
  repeat' split
  all_goals
  repeat
    first
    | exact OpsLe.refl _
    | refine OpsLe.emit ?_ _
    | refine OpsLe.createBB ?_ _
    | refine OpsLe.setBB ?_ _
    | refine OpsLe.branch ?_ _
    | refine OpsLe.condBranch ?_ _ _ _
    | refine OpsLe.maskAll ?_ _ _
    | refine OpsLe.maskAny ?_ _ _
    | refine OpsLe.setIM ?_ _
    | refine OpsLe.setFM ?_ _
    | refine OpsLe.setIMAnd ?_ _ _
    | refine OpsLe.setIMAndNot ?_ _ _
    | refine OpsLe.getVal ?_ _ _
    | exact printStmtEmit_mono _ _ _ _
    | exact assertStmtEmit_mono _ _ _ _
    | refine OpsLe.trans ?_ (declVarsEmit_mono _ _ _)
    | refine OpsLe.trans ?_ (doStmtEmitTest_mono _ _ _ _ _ _)
    | refine OpsLe.trans ?_ (stmtEmitCode_mono _ _ _)
    | refine OpsLe.trans ?_ (stmtEmitOpt_mono _ _ _)
    | refine OpsLe.trans ?_ (stmtEmitList_mono _ _ _)
    | refine OpsLe.trans ?_ (lEmitIfStatements_mono _ _ _ _)
    | refine OpsLe.trans ?_ (emitMaskedTrueAndFalse_mono _ _ _ _ _ _)
    | refine OpsLe.trans ?_ (emitMaskMixed_mono _ _ _ _ _ _ _)
    | refine OpsLe.trans ?_ (emitMaskMixedAfterTrue_mono _ _ _ _ _ _ _)
    | refine OpsLe.trans ?_ (emitMaskMixedDone_mono _ _)
    | refine OpsLe.trans ?_ (emitMaskAllOn_mono _ _ _ _ _ _)
    | refine OpsLe.trans ?_ (emitVaryingIf_mono _ _ _ _ _ _)
    | refine OpsLe.trans ?_ (forEmitRest_mono _ _ _ _ _ _ _ _ _ _ _ _)
    | refine OpsLe.trans ?_ (ifStmtEmitRest_mono _ _ _ _ _ _)
    | refine OpsLe.trans ?_ (doStmtEmitRest_mono _ _ _ _ _)
    | refine OpsLe.trans ?_ (doStmtEmitLoop_mono _ _ _ _ _ _)
    | refine OpsLe.trans ?_ (doStmtEmitBody_mono _ _ _ _ _ _)
    | refine OpsLe.trans ?_ (forStmtEmitGuts_mono _ _ _ _ _ _ _)
    | refine OpsLe.trans ?_ (forStmtEmitTest_mono _ _ _ _ _ _ _ _ _ _ _ _)
termination_by 5 * (sizeOf ts + sizeOf fs) + 3
decreasing_by all_goals (subst_vars; simp_wf; try omega)

theorem emitVaryingIf_mono (E : Env) (ts fs : Option Stmt) (doAllCheck : Bool)
    (ltest : LVal) (ctx : Ctx) :
    OpsLe ctx (emitVaryingIf E ts fs doAllCheck ltest ctx) := by
  rw [emitVaryingIf.eq_def]
  dsimp only
  repeat' split
  all_goals
  repeat
    first
    | exact OpsLe.refl _
    | refine OpsLe.emit ?_ _
    | refine OpsLe.createBB ?_ _
    | refine OpsLe.setBB ?_ _
    | refine OpsLe.branch ?_ _
    | refine OpsLe.condBranch ?_ _ _ _
    | refine OpsLe.maskAll ?_ _ _
    | refine OpsLe.maskAny ?_ _ _
    | refine OpsLe.setIM ?_ _
    | refine OpsLe.setFM ?_ _
    | refine OpsLe.setIMAnd ?_ _ _
    | refine OpsLe.setIMAndNot ?_ _ _
    | refine OpsLe.getVal ?_ _ _
    | exact printStmtEmit_mono _ _ _ _
    | exact assertStmtEmit_mono _ _ _ _
    | refine OpsLe.trans ?_ (declVarsEmit_mono _ _ _)
    | refine OpsLe.trans ?_ (doStmtEmitTest_mono _ _ _ _ _ _)
    | refine OpsLe.trans ?_ (stmtEmitCode_mono _ _ _)
    | refine OpsLe.trans ?_ (stmtEmitOpt_mono _ _ _)
    | refine OpsLe.trans ?_ (stmtEmitList_mono _ _ _)
    | refine OpsLe.trans ?_ (lEmitIfStatements_mono _ _ _ _)
    | refine OpsLe.trans ?_ (emitMaskedTrueAndFalse_mono _ _ _ _ _ _)
    | refine OpsLe.trans ?_ (emitMaskMixed_mono _ _ _ _ _ _ _)
    | refine OpsLe.trans ?_ (emitMaskMixedAfterTrue_mono _ _ _ _ _ _ _)
    | refine OpsLe.trans ?_ (emitMaskMixedDone_mono _ _)
    | refine OpsLe.trans ?_ (emitMaskAllOn_mono _ _ _ _ _ _)
    | refine OpsLe.trans ?_ (emitVaryingIf_mono _ _ _ _ _ _)
    | refine OpsLe.trans ?_ (forEmitRest_mono _ _ _ _ _ _ _ _ _ _ _ _)
    | refine OpsLe.trans ?_ (ifStmtEmitRest_mono _ _ _ _ _ _)
    | refine OpsLe.trans ?_ (doStmtEmitRest_mono _ _ _ _ _)
    | refine OpsLe.trans ?_ (doStmtEmitLoop_mono _ _ _ _ _ _)
    | refine OpsLe.trans ?_ (doStmtEmitBody_mono _ _ _ _ _ _)
    | refine OpsLe.trans ?_ (forStmtEmitGuts_mono _ _ _ _ _ _ _)
    | refine OpsLe.trans ?_ (forStmtEmitTest_mono _ _ _ _ _ _ _ _ _ _ _ _)
termination_by 5 * (sizeOf ts + sizeOf fs) + 4
decreasing_by all_goals (subst_vars; simp_wf; try omega)

theorem forEmitRest_mono (E : Env) (init step stmts : Option Stmt)
    (doCoherentCheck uniformTest : Bool) (btest bstep bloop bexit : Nat)
    (ltest : LVal) (ctx : Ctx) :
    OpsLe ctx (forEmitRest E init step stmts doCoherentCheck uniformTest
      btest bstep bloop bexit ltest ctx) := by
  rw [forEmitRest.eq_def]
  dsimp only
  repeat' split
  all_goals
  repeat
    first
    | exact OpsLe.refl _
    | refine OpsLe.emit ?_ _
    | refine OpsLe.createBB ?_ _
    | refine OpsLe.setBB ?_ _
    | refine OpsLe.branch ?_ _
    | refine OpsLe.condBranch ?_ _ _ _
    | refine OpsLe.maskAll ?_ _ _
    | refine OpsLe.maskAny ?_ _ _
    | refine OpsLe.setIM ?_ _
    | refine OpsLe.setFM ?_ _
    | refine OpsLe.setIMAnd ?_ _ _
    | refine OpsLe.setIMAndNot ?_ _ _
    | refine OpsLe.getVal ?_ _ _
    | exact printStmtEmit_mono _ _ _ _
    | exact assertStmtEmit_mono _ _ _ _
    | refine OpsLe.trans ?_ (declVarsEmit_mono _ _ _)
    | refine OpsLe.trans ?_ (doStmtEmitTest_mono _ _ _ _ _ _)
    | refine OpsLe.trans ?_ (stmtEmitCode_mono _ _ _)
    | refine OpsLe.trans ?_ (stmtEmitOpt_mono _ _ _)
    | refine OpsLe.trans ?_ (stmtEmitList_mono _ _ _)
    | refine OpsLe.trans ?_ (lEmitIfStatements_mono _ _ _ _)
    | refine OpsLe.trans ?_ (emitMaskedTrueAndFalse_mono _ _ _ _ _ _)
    | refine OpsLe.trans ?_ (emitMaskMixed_mono _ _ _ _ _ _ _)
    | refine OpsLe.trans ?_ (emitMaskMixedAfterTrue_mono _ _ _ _ _ _ _)
    | refine OpsLe.trans ?_ (emitMaskMixedDone_mono _ _)
    | refine OpsLe.trans ?_ (emitMaskAllOn_mono _ _ _ _ _ _)
    | refine OpsLe.trans ?_ (emitVaryingIf_mono _ _ _ _ _ _)
    | refine OpsLe.trans ?_ (forEmitRest_mono _ _ _ _ _ _ _ _ _ _ _ _)
    | refine OpsLe.trans ?_ (ifStmtEmitRest_mono _ _ _ _ _ _)
    | refine OpsLe.trans ?_ (doStmtEmitRest_mono _ _ _ _ _)
    | refine OpsLe.trans ?_ (doStmtEmitLoop_mono _ _ _ _ _ _)
    | refine OpsLe.trans ?_ (doStmtEmitBody_mono _ _ _ _ _ _)
    | refine OpsLe.trans ?_ (forStmtEmitGuts_mono _ _ _ _ _ _ _)
    | refine OpsLe.trans ?_ (forStmtEmitTest_mono _ _ _ _ _ _ _ _ _ _ _ _)
termination_by 5 * (sizeOf init + sizeOf step + sizeOf stmts) + 4
decreasing_by all_goals (subst_vars; simp_wf; try omega)

end

/-! ## Theorems -/

/-- C2, counterexample: the safety analyzer judges a value-less
`return;` **unsafe** -- `ReturnStmt` delegates its null value expression
to the `Expr *` overload, whose first line returns false for null --
whereas the claim says an absent return value is judged safe. -/
theorem C2_counterexample :
    lSafeToRunWithAllLanesOffStmt (some (Stmt.returnStmt none false)) = false := by
  simp [lSafeToRunWithAllLanesOffStmt, lSafeStmtCore, lSafeToRunWithAllLanesOffExpr]

/-- C2 (amended): the safe-with-all-lanes-off predicate on a return
statement returns true when the return value expression is present and
safe, and returns **false** when the return value is absent. -/
theorem C2_return_safety (v : Expr) (cc cc' : Bool)
    (hv : lSafeExpr v = true) :
    lSafeToRunWithAllLanesOffStmt (some (Stmt.returnStmt (some v) cc)) = true ∧
    lSafeToRunWithAllLanesOffStmt (some (Stmt.returnStmt none cc')) = false := by
  constructor
  · simp [lSafeToRunWithAllLanesOffStmt, lSafeStmtCore,
      lSafeToRunWithAllLanesOffExpr, hv]
  · simp [lSafeToRunWithAllLanesOffStmt, lSafeStmtCore,
      lSafeToRunWithAllLanesOffExpr]

theorem C2_return_safety_witness :
    lSafeExpr Expr.syncE = true ∧
    (lSafeToRunWithAllLanesOffStmt (some (Stmt.returnStmt (some Expr.syncE) false)) = true ∧
     lSafeToRunWithAllLanesOffStmt (some (Stmt.returnStmt none false)) = false) :=
  ⟨by simp [lSafeExpr],
   C2_return_safety Expr.syncE false false (by simp [lSafeExpr])⟩

/-- C3: for a `do` or `for` loop whose type-check succeeds and whose
type-checked test has a known type, the test is cast to uniform-bool if
and only if the test's type is uniform AND `disableUniformControlFlow`
is false AND the loop body has no break/continue under a varying `if`
not enclosed by a nested loop; otherwise it is cast to varying-bool.
The uniformity of the cast target is exactly the `uniformTest` flag the
emitter later reads back from the test's type, so it decides the
uniform-vs-varying loop lowering. -/
theorem C3_uniform_loop_test (E : Env) :
    (∀ (te : Expr) (body : Option Stmt) (cc : Bool) (t' : Expr) (ty : Typ) (s' : Stmt),
      E.etc te = some t' → t'.getType = some ty →
      stmtTypeCheck E (Stmt.doStmt (some te) body cc) = some s' →
      ∃ target,
        s' = Stmt.doStmt (some (Expr.typeCast target t')) (stmtTypeCheckOpt E body) cc ∧
        (target = uniformBool ∨ target = varyingBool) ∧
        ((target = uniformBool) ↔
          (ty.isUniformType = true ∧ E.disableUniformControlFlow = false ∧
           lHasVaryingBreakOrContinue body false = false)) ∧
        target.isUniformType =
          (ty.isUniformType && !E.disableUniformControlFlow &&
           !lHasVaryingBreakOrContinue body false)) ∧
    (∀ (init : Option Stmt) (te : Expr) (step body : Option Stmt) (cc : Bool)
        (t' : Expr) (ty : Typ) (s' : Stmt),
      E.etc te = some t' → t'.getType = some ty →
      stmtTypeCheck E (Stmt.forStmt init (some te) step body cc) = some s' →
      ∃ target,
        s' = Stmt.forStmt (stmtTypeCheckOpt E init) (some (Expr.typeCast target t'))
          (stmtTypeCheckOpt E step) (stmtTypeCheckOpt E body) cc ∧
        (target = uniformBool ∨ target = varyingBool) ∧
        ((target = uniformBool) ↔
          (ty.isUniformType = true ∧ E.disableUniformControlFlow = false ∧
           lHasVaryingBreakOrContinue body false = false)) ∧
        target.isUniformType =
          (ty.isUniformType && !E.disableUniformControlFlow &&
           !lHasVaryingBreakOrContinue body false)) := by
  constructor
  · intro te body cc t' ty s' h1 h2 h3
    simp only [stmtTypeCheck, Option.some_bind, h1, h2] at h3
    split at h3
    · exact absurd h3 (by simp)
    · refine ⟨if ty.isUniformType && !E.disableUniformControlFlow &&
        !lHasVaryingBreakOrContinue body false then uniformBool else varyingBool, ?_, ?_, ?_, ?_⟩
      · exact (Option.some.inj h3).symm
      · split <;> simp
      · constructor
        · intro h
          by_contra hc
          rw [Classical.not_and_iff_or_not_not] at hc
          split at h
          · rename_i hcond
            simp only [Bool.and_eq_true, Bool.not_eq_true'] at hcond
            rcases hc with hc | hc
            · exact hc hcond.1.1
            · rw [Classical.not_and_iff_or_not_not] at hc
              rcases hc with hc | hc
              · exact hc hcond.1.2
              · exact hc hcond.2
          · exact absurd h (by simp [uniformBool, varyingBool])
        · intro ⟨ha, hb, hc⟩
          simp [ha, hb, hc]
      · split <;> rename_i hcond
        · simp only [hcond]
          simp [uniformBool, Typ.isUniformType]
        · simp only [Bool.not_eq_true] at hcond
          simp [hcond, varyingBool, Typ.isUniformType]
  · intro init te step body cc t' ty s' h1 h2 h3
    simp only [stmtTypeCheck, Option.some_bind, h1, h2] at h3
    split at h3
    · exact absurd h3 (by simp)
    · refine ⟨if ty.isUniformType && !E.disableUniformControlFlow &&
        !lHasVaryingBreakOrContinue body false then uniformBool else varyingBool, ?_, ?_, ?_, ?_⟩
      · exact (Option.some.inj h3).symm
      · split <;> simp
      · constructor
        · intro h
          by_contra hc
          rw [Classical.not_and_iff_or_not_not] at hc
          split at h
          · rename_i hcond
            simp only [Bool.and_eq_true, Bool.not_eq_true'] at hcond
            rcases hc with hc | hc
            · exact hc hcond.1.1
            · rw [Classical.not_and_iff_or_not_not] at hc
              rcases hc with hc | hc
              · exact hc hcond.1.2
              · exact hc hcond.2
          · exact absurd h (by simp [uniformBool, varyingBool])
        · intro ⟨ha, hb, hc⟩
          simp [ha, hb, hc]
      · split <;> rename_i hcond
        · simp only [hcond]
          simp [uniformBool, Typ.isUniformType]
        · simp only [Bool.not_eq_true] at hcond
          simp [hcond, varyingBool, Typ.isUniformType]

theorem C3_uniform_loop_test_witness :
    ∃ target,
      Stmt.doStmt (some (Expr.typeCast uniformBool (Expr.symbolE (some uniformBool))))
          none false =
        Stmt.doStmt (some (Expr.typeCast target (Expr.symbolE (some uniformBool))))
          (stmtTypeCheckOpt E0 none) false ∧
      (target = uniformBool ∨ target = varyingBool) ∧
      ((target = uniformBool) ↔
        (uniformBool.isUniformType = true ∧ E0.disableUniformControlFlow = false ∧
         lHasVaryingBreakOrContinue none false = false)) ∧
      target.isUniformType =
        (uniformBool.isUniformType && !E0.disableUniformControlFlow &&
         !lHasVaryingBreakOrContinue none false) :=
  (C3_uniform_loop_test E0).1 (Expr.symbolE (some uniformBool)) none false
    (Expr.symbolE (some uniformBool)) uniformBool
    (Stmt.doStmt (some (Expr.typeCast uniformBool (Expr.symbolE (some uniformBool))))
      none false)
    (by simp [E0]) (by simp [Expr.getType])
    (by simp [stmtTypeCheck, E0, Expr.getType, uniformBool, Typ.isUniformType,
      Typ.isNumericType, Typ.isBoolType, lHasVaryingBreakOrContinue, stmtTypeCheckOpt])

/-- C5: whenever type-check succeeds on an `if`, `do`, `for` or `assert`
statement whose test is present and has a known type, the statement's
test afterwards is a bool cast around the type-checked test, and its
type is exactly uniform-bool or varying-bool. -/
theorem C5_test_bool_after_typecheck (E : Env) :
    (∀ (test : Expr) (ts fs : Option Stmt) (a b : Bool) (t' : Expr) (ty : Typ) (s' : Stmt),
      E.etc test = some t' → t'.getType = some ty →
      stmtTypeCheck E (Stmt.ifStmt (some test) ts fs a b) = some s' →
      ∃ target, stmtTest s' = some (Expr.typeCast target t') ∧
        (target = uniformBool ∨ target = varyingBool) ∧
        (Expr.typeCast target t').getType = some target ∧
        target.isBoolType = true) ∧
    (∀ (te : Expr) (body : Option Stmt) (cc : Bool) (t' : Expr) (ty : Typ) (s' : Stmt),
      E.etc te = some t' → t'.getType = some ty →
      stmtTypeCheck E (Stmt.doStmt (some te) body cc) = some s' →
      ∃ target, stmtTest s' = some (Expr.typeCast target t') ∧
        (target = uniformBool ∨ target = varyingBool) ∧
        (Expr.typeCast target t').getType = some target ∧
        target.isBoolType = true) ∧
    (∀ (init : Option Stmt) (te : Expr) (step body : Option Stmt) (cc : Bool)
        (t' : Expr) (ty : Typ) (s' : Stmt),
      E.etc te = some t' → t'.getType = some ty →
      stmtTypeCheck E (Stmt.forStmt init (some te) step body cc) = some s' →
      ∃ target, stmtTest s' = some (Expr.typeCast target t') ∧
        (target = uniformBool ∨ target = varyingBool) ∧
        (Expr.typeCast target t').getType = some target ∧
        target.isBoolType = true) ∧
    (∀ (msg : String) (e : Expr) (t' : Expr) (ty : Typ) (s' : Stmt),
      E.etc e = some t' → t'.getType = some ty →
      stmtTypeCheck E (Stmt.assertStmt msg (some e)) = some s' →
      ∃ target, stmtTest s' = some (Expr.typeCast target t') ∧
        (target = uniformBool ∨ target = varyingBool) ∧
        (Expr.typeCast target t').getType = some target ∧
        target.isBoolType = true) := by
  refine ⟨?_, ?_, ?_, ?_⟩
  · intro test ts fs a b t' ty s' h1 h2 h3
    simp only [stmtTypeCheck, Option.some_bind, h1, h2] at h3
    split at h3
    · exact absurd h3 (by simp)
    · refine ⟨if ty.isUniformType && !E.disableUniformControlFlow then uniformBool
        else varyingBool, ?_, ?_, ?_, ?_⟩
      · rw [← Option.some.inj h3]; rfl
      · split <;> simp
      · rfl
      · split <;> simp [uniformBool, varyingBool, Typ.isBoolType]
  · intro te body cc t' ty s' h1 h2 h3
    simp only [stmtTypeCheck, Option.some_bind, h1, h2] at h3
    split at h3
    · exact absurd h3 (by simp)
    · refine ⟨if ty.isUniformType && !E.disableUniformControlFlow &&
        !lHasVaryingBreakOrContinue body false then uniformBool
        else varyingBool, ?_, ?_, ?_, ?_⟩
      · rw [← Option.some.inj h3]; rfl
      · split <;> simp
      · rfl
      · split <;> simp [uniformBool, varyingBool, Typ.isBoolType]
  · intro init te step body cc t' ty s' h1 h2 h3
    simp only [stmtTypeCheck, Option.some_bind, h1, h2] at h3
    split at h3
    · exact absurd h3 (by simp)
    · refine ⟨if ty.isUniformType && !E.disableUniformControlFlow &&
        !lHasVaryingBreakOrContinue body false then uniformBool
        else varyingBool, ?_, ?_, ?_, ?_⟩
      · rw [← Option.some.inj h3]; rfl
      · split <;> simp
      · rfl
      · split <;> simp [uniformBool, varyingBool, Typ.isBoolType]
  · intro msg e t' ty s' h1 h2 h3
    simp only [stmtTypeCheck, Option.some_bind, h1, h2] at h3
    split at h3
    · exact absurd h3 (by simp)
    · refine ⟨if ty.isUniformType then uniformBool else varyingBool, ?_, ?_, ?_, ?_⟩
      · rw [← Option.some.inj h3]; rfl
      · split <;> simp
      · rfl
      · split <;> simp [uniformBool, varyingBool, Typ.isBoolType]

theorem C5_test_bool_after_typecheck_witness :
    ∃ target,
      stmtTest (Stmt.assertStmt "m"
          (some (Expr.typeCast varyingBool (Expr.symbolE (some varyingBool))))) =
        some (Expr.typeCast target (Expr.symbolE (some varyingBool))) ∧
      (target = uniformBool ∨ target = varyingBool) ∧
      (Expr.typeCast target (Expr.symbolE (some varyingBool))).getType = some target ∧
      target.isBoolType = true :=
  (C5_test_bool_after_typecheck E0).2.2.2 "m" (Expr.symbolE (some varyingBool))
    (Expr.symbolE (some varyingBool)) varyingBool
    (Stmt.assertStmt "m"
      (some (Expr.typeCast varyingBool (Expr.symbolE (some varyingBool)))))
    (by simp [E0]) (by simp [Expr.getType])
    (by simp [stmtTypeCheck, E0, Expr.getType, varyingBool, Typ.isUniformType,
      Typ.isNumericType, Typ.isBoolType])

/-- C10: a print argument whose type is an 8-bit or 16-bit integer,
signed or unsigned (and possibly const), is cast to signed 32-bit int --
uniform-int32 or varying-int32 following the argument's variability --
so the emitted type-string character is 'i' for uniform and 'I' for
varying, even when the original type was unsigned. -/
theorem C10_print_small_int_promotion (E : Env) (e : Expr) (ty : Typ)
    (ctx : Ctx) (argTypes : String)
    (hty : e.getType = some ty)
    (hsmall : ty.getAsNonConstType.getAsUniformType = uniformInt8 ∨
      ty.getAsNonConstType.getAsUniformType = uniformUInt8 ∨
      ty.getAsNonConstType.getAsUniformType = uniformInt16 ∨
      ty.getAsNonConstType.getAsUniformType = uniformUInt16) :
    (lProcessPrintArg E e ctx argTypes).2.1 =
      argTypes.push (if ty.isUniformType then 'i' else 'I') ∧
    Op.evalExpr (Expr.typeCast (if ty.isUniformType then uniformInt32 else varyingInt32) e)
      ∈ (lProcessPrintArg E e ctx argTypes).2.2.ops := by
  obtain ⟨b, v, c, rfl, hb⟩ : ∃ b v c, ty = Typ.atomic b v c ∧
      (b = BaseType.int8 ∨ b = BaseType.uint8 ∨ b = BaseType.int16 ∨ b = BaseType.uint16) := by
    cases ty with
    | atomic b v c =>
      refine ⟨b, v, c, rfl, ?_⟩
      cases b <;> simp [Typ.getAsNonConstType, Typ.getAsUniformType, uniformInt8,
        uniformUInt8, uniformInt16, uniformUInt16] at hsmall ⊢
    | enum n v c =>
      simp [Typ.getAsNonConstType, Typ.getAsUniformType, uniformInt8,
        uniformUInt8, uniformInt16, uniformUInt16] at hsmall
    | ref t =>
      simp [Typ.getAsNonConstType, Typ.getAsUniformType, uniformInt8,
        uniformUInt8, uniformInt16, uniformUInt16] at hsmall
    | arr t n =>
      simp [Typ.getAsNonConstType, Typ.getAsUniformType, uniformInt8,
        uniformUInt8, uniformInt16, uniformUInt16] at hsmall
    | vec t n =>
      simp [Typ.getAsNonConstType, Typ.getAsUniformType, uniformInt8,
        uniformUInt8, uniformInt16, uniformUInt16] at hsmall
    | structT es v c =>
      simp [Typ.getAsNonConstType, Typ.getAsUniformType, uniformInt8,
        uniformUInt8, uniformInt16, uniformUInt16] at hsmall
  rcases hb with rfl | rfl | rfl | rfl <;> cases v <;> cases c <;>
    simp [lProcessPrintArg, hty, Typ.getAsNonConstType, Typ.getAsUniformType,
      Typ.isUniformType, uniformInt8, uniformUInt8, uniformInt16, uniformUInt16,
      uniformInt32, varyingInt32, lEncodeType, Ctx.allocaInst, Ctx.getValue,
      Ctx.emit, Ctx.storeInst, Ctx.bitCastInst] <;>
    split <;> simp

theorem C10_print_small_int_promotion_witness :
    (lProcessPrintArg E0 (Expr.symbolE (some (Typ.atomic BaseType.uint16
        Variability.varying true))) ctx0 "x").2.1 =
      "x".push (if (Typ.atomic BaseType.uint16 Variability.varying true).isUniformType
        then 'i' else 'I') ∧
    Op.evalExpr (Expr.typeCast
        (if (Typ.atomic BaseType.uint16 Variability.varying true).isUniformType
          then uniformInt32 else varyingInt32)
        (Expr.symbolE (some (Typ.atomic BaseType.uint16 Variability.varying true))))
      ∈ (lProcessPrintArg E0 (Expr.symbolE (some (Typ.atomic BaseType.uint16
        Variability.varying true))) ctx0 "x").2.2.ops :=
  C10_print_small_int_promotion E0 _ _ ctx0 "x" (by simp [Expr.getType])
    (by simp [Typ.getAsNonConstType, Typ.getAsUniformType, uniformUInt16])

/-- C6: for a declaration whose declared type is an unsized array
(element-count 0): with a brace-list initializer of length k the
symbol's type is replaced by the k-sized array type (and emission
proceeds); with an absent or non-brace initializer an error is reported
and the variable is skipped -- the trace gains exactly the error, so no
storage is allocated and the symbol's type is never set. -/
theorem C6_deferred_size_array (E : Env) (v : VarDecl) (elt : Typ) (ctx : Ctx)
    (hty : v.sym.ty = some (Typ.arr elt 0)) :
    (∀ es, v.init = some (Expr.exprList es) →
      ∃ tail, (declVarEmit E v ctx).ops =
        ctx.ops ++ [Op.symSetVaryingCFDepth v.sym.name ctx.varyingCFDepth,
          Op.setDebugPos, Op.symSetType v.sym.name (Typ.arr elt es.length)] ++ tail) ∧
    ((v.init = none ∨ ∃ i, v.init = some i ∧ i.isExprList = false) →
      (declVarEmit E v ctx).ops =
        ctx.ops ++ [Op.symSetVaryingCFDepth v.sym.name ctx.varyingCFDepth,
          Op.setDebugPos, Op.error ErrKind.unsizedArrayNoInit]) := by
  constructor
  · intro es hinit
    rw [declVarEmit.eq_def]
    simp only [hty, hinit]
    obtain ⟨t, ht⟩ := declVarEmitTyped_mono E v ((Typ.arr elt 0).getSizedArray es.length)
      (((ctx.emit (Op.symSetVaryingCFDepth v.sym.name ctx.varyingCFDepth)).emit
          Op.setDebugPos).emit
        (Op.symSetType v.sym.name ((Typ.arr elt 0).getSizedArray es.length)))
    refine ⟨t, ?_⟩
    rw [ht]
    simp [Ctx.emit, Typ.getSizedArray]
  · intro hinit
    rw [declVarEmit.eq_def]
    rcases hinit with hinit | ⟨i, hinit, hne⟩
    · simp [hty, hinit, Ctx.emit]
    · cases i <;> simp_all [hty, Ctx.emit, Expr.isExprList]

/-- C7: initializing a collection-typed variable from a brace list of
length N reports the arity error (with the required and provided
counts) and emits nothing else if and only if N differs from the
collection's element count; when N matches, the routine loops over the
elements, and each step computes an element pointer into the storage
and recurses with the collection's i-th element type and the i-th
initializer expression. -/
theorem C7_collection_brace_arity (E : Env) (lv : LVal) (name : String)
    (type : Typ) (es : List Expr) (ctx : Ctx)
    (hcoll : type.isCollection = true) :
    (es.length ≠ type.getElementCount →
      lInitSymbolSome E lv name type (Expr.exprList es) ctx =
        ctx.emit (Op.error (ErrKind.arityMismatch type.getElementCount es.length))) ∧
    (es.length = type.getElementCount →
      lInitSymbolSome E lv name type (Expr.exprList es) ctx =
        lInitElems E lv name type es 0 ctx) ∧
    (∀ (T : Typ) (e : Expr) (rest : List Expr) (i : Nat) (c : Ctx),
      lInitElems E lv name T (e :: rest) i c =
        lInitElems E lv name T rest (i + 1)
          (lInitSymbolSome E (LVal.gep lv 0 i) name (T.getElementType i) e
            (c.emit (Op.gepOp lv 0 i)))) := by
  refine ⟨?_, ?_, ?_⟩
  · intro hne
    rw [lInitSymbolSome]
    cases type <;> simp_all [Typ.isCollection, Typ.getElementCount,
      Expr.isExprList, lInitNonConverted]
  · intro heq
    rw [lInitSymbolSome]
    cases type <;> simp_all [Typ.isCollection, Typ.getElementCount,
      Expr.isExprList, lInitNonConverted]
  · intro T e rest i c
    rw [lInitElems]
    simp [Ctx.getElementPtrInst]

theorem C7_collection_brace_arity_witness :
    (([Expr.syncE] : List Expr).length ≠
        (Typ.arr uniformInt32 3).getElementCount ∧
      lInitSymbolSome E0 (LVal.alloca 0) "a" (Typ.arr uniformInt32 3)
          (Expr.exprList [Expr.syncE]) ctx0 =
        ctx0.emit (Op.error (ErrKind.arityMismatch
          (Typ.arr uniformInt32 3).getElementCount 1))) :=
  ⟨by simp [Typ.getElementCount],
   (C7_collection_brace_arity E0 (LVal.alloca 0) "a" (Typ.arr uniformInt32 3)
      [Expr.syncE] ctx0 (by simp [Typ.isCollection])).1
     (by simp [Typ.getElementCount])⟩

/-- C8, counterexample: a reference-typed declaration without an
initializer does **not** store an undefined value into a stack slot --
it is reported as an error ("must provide initializer for
reference-type variable") and skipped entirely, with no store and no
allocation, contradicting the claim's unrestricted "every declaration
without an initializer expression". -/
theorem C8_counterexample :
    (declVarEmit E0
        { sym := { name := "r", ty := some (Typ.ref uniformInt32),
                   storageClass := StorageClass.auto, constValue := none },
          init := none } ctx0).ops =
      [Op.symSetVaryingCFDepth "r" 0, Op.setDebugPos, Op.error ErrKind.refNoInit] := by
  rw [declVarEmit.eq_def]
  simp [ctx0, Ctx.emit, declVarEmitTyped, Expr.isExprList]

/-- C8 (amended): for a declaration without an initializer expression
whose declared type is not a reference type and not an unsized array
(those are reported as errors and skipped): with non-static storage, a
stack slot is allocated and an **undefined** value of the declared type
is stored into it (not zero); with static storage, the global slot is
created with the zero (null) value of the type. -/
theorem C8_uninitialized_declaration (E : Env) (v : VarDecl) (type : Typ) (ctx : Ctx)
    (hty : v.sym.ty = some type) (hinit : v.init = none)
    (hnotref : (match type with | Typ.ref _ => true | _ => false) = false)
    (hnotarr0 : (match type with | Typ.arr _ 0 => true | _ => false) = false) :
    (v.sym.storageClass = StorageClass.auto →
      (declVarEmit E v ctx).ops =
        ctx.ops ++ [Op.symSetVaryingCFDepth v.sym.name ctx.varyingCFDepth,
          Op.setDebugPos, Op.allocaOp v.sym.name ctx.fresh,
          Op.symSetStoragePtr v.sym.name (LVal.alloca ctx.fresh),
          Op.debugInfo v.sym.name, Op.symSetParentFunction v.sym.name,
          Op.store (LVal.undef type) (LVal.alloca ctx.fresh)]) ∧
    (v.sym.storageClass = StorageClass.static →
      (declVarEmit E v ctx).ops =
        ctx.ops ++ [Op.symSetVaryingCFDepth v.sym.name ctx.varyingCFDepth,
          Op.setDebugPos, Op.globalVar v.sym.name (LVal.zeroInit type),
          Op.symSetStoragePtr v.sym.name (LVal.globalV v.sym.name),
          Op.debugInfo v.sym.name]) := by
  constructor
  · intro hsc
    rw [declVarEmit.eq_def]
    cases type with
    | atomic b vv c =>
      simp [hty, hinit, hsc, Ctx.emit, declVarEmitTyped, lInitSymbol,
        Ctx.allocaInst, Ctx.storeInst]
    | enum n vv c =>
      simp [hty, hinit, hsc, Ctx.emit, declVarEmitTyped, lInitSymbol,
        Ctx.allocaInst, Ctx.storeInst]
    | ref t => simp at hnotref
    | arr e n =>
      cases n with
      | zero => simp at hnotarr0
      | succ m =>
        simp [hty, hinit, hsc, Ctx.emit, declVarEmitTyped, lInitSymbol,
          Ctx.allocaInst, Ctx.storeInst]
    | vec e n =>
      simp [hty, hinit, hsc, Ctx.emit, declVarEmitTyped, lInitSymbol,
        Ctx.allocaInst, Ctx.storeInst]
    | structT es vv c =>
      simp [hty, hinit, hsc, Ctx.emit, declVarEmitTyped, lInitSymbol,
        Ctx.allocaInst, Ctx.storeInst]
  · intro hsc
    rw [declVarEmit.eq_def]
    cases type with
    | atomic b vv c => simp [hty, hinit, hsc, Ctx.emit, declVarEmitTyped]
    | enum n vv c => simp [hty, hinit, hsc, Ctx.emit, declVarEmitTyped]
    | ref t => simp at hnotref
    | arr e n =>
      cases n with
      | zero => simp at hnotarr0
      | succ m => simp [hty, hinit, hsc, Ctx.emit, declVarEmitTyped]
    | vec e n => simp [hty, hinit, hsc, Ctx.emit, declVarEmitTyped]
    | structT es vv c => simp [hty, hinit, hsc, Ctx.emit, declVarEmitTyped]

theorem C8_uninitialized_declaration_witness :
    ((declVarEmit E0
        { sym := { name := "x", ty := some uniformInt32,
                   storageClass := StorageClass.auto, constValue := none },
          init := none } ctx0).ops =
      ctx0.ops ++ [Op.symSetVaryingCFDepth "x" ctx0.varyingCFDepth,
        Op.setDebugPos, Op.allocaOp "x" ctx0.fresh,
        Op.symSetStoragePtr "x" (LVal.alloca ctx0.fresh),
        Op.debugInfo "x", Op.symSetParentFunction "x",
        Op.store (LVal.undef uniformInt32) (LVal.alloca ctx0.fresh)]) :=
  (C8_uninitialized_declaration E0 _ uniformInt32 ctx0 rfl rfl
    (by simp [uniformInt32]) (by simp [uniformInt32])).1 rfl


/-- C1 (amended): for every statement variant **except print and
assert**, `EmitCode` with no current basic block leaves the emit context
completely unchanged: no operations are emitted and no state field
moves.  (`PrintStmt::EmitCode` and `AssertStmt::EmitCode` lack the
guard; see the counterexample.) -/
theorem C1_emit_noop_without_basic_block (E : Env) (s : Stmt) (ctx : Ctx)
    (hbb : ctx.bb = none)
    (hnp : (match s with
      | Stmt.printStmt _ _ => true
      | Stmt.assertStmt _ _ => true
      | _ => false) = false) :
    stmtEmitCode E s ctx = ctx := by
  cases s <;>
    first
    | exact Bool.noConfusion hnp
    | (rw [stmtEmitCode.eq_def]; dsimp only; rw [hbb])

/-- C1 witness: a `break` statement emitted into a context whose current
basic block is null is a no-op. -/
theorem C1_emit_noop_without_basic_block_witness :
    ({ ctx0 with bb := none } : Ctx).bb = none ∧
    stmtEmitCode E0 (Stmt.breakStmt false) { ctx0 with bb := none } =
      { ctx0 with bb := none } :=
  ⟨rfl, C1_emit_noop_without_basic_block E0 (Stmt.breakStmt false)
    { ctx0 with bb := none } rfl rfl⟩

/-- C1 counterexample: `PrintStmt::EmitCode` has no current-basic-block
guard; with a null current block it still emits the `__do_print` call,
so the context is changed and the claim's "every statement variant"
fails. -/
theorem C1_counterexample :
    stmtEmitCode E0 (Stmt.printStmt "x" none) { ctx0 with bb := none } ≠
      { ctx0 with bb := none } := by
  intro h
  have h2 := congrArg (fun c => c.ops.length) h
  rw [stmtEmitCode.eq_def] at h2
  simp [printStmtEmit.eq_def, Ctx.emit, Ctx.callInst, ctx0] at h2


/-- C4: for a varying `if` emitted with the full mask not statically
all-on and the coherent-check flag unset, the lowering is predicated --
both branches run with the internal mask set to `oldMask & test` resp.
`oldMask & ~test`, with no `any(mask)` gate -- exactly when both
branches are safe with all lanes off and their summed estimated cost is
below the threshold; otherwise each present branch is gated on
`any(full mask)` by the mask-mixed path. -/
theorem C4_varying_if_predicated_vs_gated (E : Env) (ts fs : Option Stmt)
    (ltest : LVal) (ctx : Ctx) (hmask : ctx.fullMaskIsAllOn = false) :
    varyingIfLoweringSpec E ts fs ltest ctx := by
  refine ⟨?p1, ?p2, ?p3, ?p4, ?p5⟩
  · intro hsome hcond
    rw [emitVaryingIf.eq_def]
    dsimp only
    rw [if_neg (by simp [hmask]), if_neg (by simp), if_pos hsome, if_pos hcond]
  · intro hsome hcond
    rw [emitVaryingIf.eq_def]
    dsimp only
    rw [if_neg (by simp [hmask]), if_neg (by simp), if_pos hsome,
      if_neg (by simp [hcond])]
  · intro om c hts hfs
    rw [emitMaskedTrueAndFalse.eq_def]
    dsimp only
    rw [if_pos hts, if_pos hfs]
  · intro om bD c hts
    have h1 : OpsLe
        ((((((c.emit (Op.startVaryingIf om)).createBasicBlock
             "safe_if_after_true").2.createBasicBlock
             "safe_if_run_true").2.setInternalMaskAnd om ltest).condBranchInst (c.fresh + 1) c.fresh
          (LVal.anyReduce ((((c.emit (Op.startVaryingIf om)).createBasicBlock
             "safe_if_after_true").2.createBasicBlock
             "safe_if_run_true").2.setInternalMaskAnd om ltest).getFullMask)).setCurrentBasicBlock (c.fresh + 1))
        (emitMaskMixed E ts fs om ltest bD c) := by
      rw [emitMaskMixed.eq_def]
      dsimp only
      rw [if_pos hts]
      refine OpsLe.trans ?_ (emitMaskMixedAfterTrue_mono _ _ _ _ _ _ _)
      refine OpsLe.setBB ?_ _
      refine OpsLe.branch ?_ _
      refine OpsLe.trans ?_ (lEmitIfStatements_mono _ _ _ _)
      exact OpsLe.refl _
    obtain ⟨tail, ht⟩ := h1
    refine ⟨tail, ?_⟩
    rw [ht]
    simp [Ctx.emit, Ctx.createBasicBlock, Ctx.setInternalMaskAnd,
      Ctx.condBranchInst, Ctx.setCurrentBasicBlock]
  · intro om bD c htn hfs
    subst htn
    have h1 : OpsLe
        (((((((c.emit (Op.startVaryingIf om)).createBasicBlock
             "safe_if_after_true").2.createBasicBlock
             "safe_if_run_false").2.createBasicBlock
             "safe_if_after_false").2.setInternalMaskAndNot om ltest).condBranchInst (c.fresh + 1) (c.fresh + 2)
          (LVal.anyReduce (((((c.emit (Op.startVaryingIf om)).createBasicBlock
             "safe_if_after_true").2.createBasicBlock
             "safe_if_run_false").2.createBasicBlock
             "safe_if_after_false").2.setInternalMaskAndNot om ltest).getFullMask)).setCurrentBasicBlock (c.fresh + 1))
        (emitMaskMixed E none fs om ltest bD c) := by
      rw [emitMaskMixed.eq_def]
      dsimp only
      rw [if_neg (by simp)]
      rw [emitMaskMixedAfterTrue.eq_def]
      dsimp only
      rw [if_pos hfs]
      refine OpsLe.trans ?_ (emitMaskMixedDone_mono _ _)
      refine OpsLe.setBB ?_ _
      refine OpsLe.branch ?_ _
      refine OpsLe.trans ?_ (lEmitIfStatements_mono _ _ _ _)
      exact OpsLe.refl _
    obtain ⟨tail, ht⟩ := h1
    refine ⟨tail, ?_⟩
    rw [ht]
    simp [Ctx.emit, Ctx.createBasicBlock, Ctx.setInternalMaskAndNot,
      Ctx.condBranchInst, Ctx.setCurrentBasicBlock]

/-- C4 witness: the dichotomy instantiated at a mixed-mask context and
two `break` branches. -/
theorem C4_varying_if_predicated_vs_gated_witness :
    ({ ctx0 with internalMask := LVal.boolVecTrue } : Ctx).fullMaskIsAllOn
        = false ∧
      varyingIfLoweringSpec E0 (some (Stmt.breakStmt false))
        (some (Stmt.breakStmt false)) LVal.boolVecTrue
        { ctx0 with internalMask := LVal.boolVecTrue } :=
  ⟨rfl, C4_varying_if_predicated_vs_gated E0 (some (Stmt.breakStmt false))
    (some (Stmt.breakStmt false)) LVal.boolVecTrue
    { ctx0 with internalMask := LVal.boolVecTrue } rfl⟩


/-- `DeclStmt::Optimize`'s per-variable step is idempotent once the
expression-level optimizer is. -/
theorem optVar_idem (E : Env) (hE : ∀ e, E.eopt (E.eopt e) = E.eopt e)
    (v : VarDecl) : optVar E (optVar E v) = optVar E v := by
  rcases v with ⟨⟨name, ty, sc, cv⟩, init⟩
  cases init with
  | none => rfl
  | some i0 =>
    cases ty with
    | none => simp [optVar, hE]
    | some t =>
      by_cases hc : (t.isConstType && !(E.eopt i0).isExprList &&
          optTypeEqual (E.eopt i0).getType (some t)) = true
      · simp [optVar, hc, hE]
      · simp [optVar, hc, hE]

mutual

theorem stmtOptimize_idem (E : Env) (hE : ∀ e, E.eopt (E.eopt e) = E.eopt e)
    (s : Stmt) : stmtOptimize E (stmtOptimize E s) = stmtOptimize E s := by
  match s with
  | Stmt.exprStmt expr => cases expr <;> simp [stmtOptimize, hE]
  | Stmt.declStmt vars =>
    simp only [stmtOptimize, List.map_map]
    exact congrArg Stmt.declStmt
      (List.map_congr_left fun v _ => optVar_idem E hE v)
  | Stmt.ifStmt test ts fs a b =>
    cases test <;>
      simp [stmtOptimize, hE, stmtOptimizeOpt_idem E hE ts,
        stmtOptimizeOpt_idem E hE fs]
  | Stmt.doStmt testExpr bodyStmts cc =>
    cases testExpr <;>
      simp [stmtOptimize, hE, stmtOptimizeOpt_idem E hE bodyStmts]
  | Stmt.forStmt init test step stmts cc =>
    cases test <;>
      simp [stmtOptimize, hE, stmtOptimizeOpt_idem E hE init,
        stmtOptimizeOpt_idem E hE step, stmtOptimizeOpt_idem E hE stmts]
  | Stmt.breakStmt cc => rfl
  | Stmt.continueStmt cc => rfl
  | Stmt.returnStmt val cc => cases val <;> simp [stmtOptimize, hE]
  | Stmt.stmtList stmts =>
    simp [stmtOptimize, stmtOptimizeList_idem E hE stmts]
  | Stmt.printStmt format values => cases values <;> simp [stmtOptimize, hE]
  | Stmt.assertStmt message expr => cases expr <;> simp [stmtOptimize, hE]
termination_by 3 * sizeOf s
decreasing_by all_goals (subst_vars; simp_wf; try omega)

theorem stmtOptimizeOpt_idem (E : Env) (hE : ∀ e, E.eopt (E.eopt e) = E.eopt e)
    (s? : Option Stmt) :
    stmtOptimizeOpt E (stmtOptimizeOpt E s?) = stmtOptimizeOpt E s? := by
  match s? with
  | none => rfl
  | some s => simp [stmtOptimizeOpt, stmtOptimize_idem E hE s]
termination_by 3 * sizeOf s? + 1
decreasing_by all_goals (subst_vars; simp_wf; try omega)

theorem stmtOptimizeList_idem (E : Env) (hE : ∀ e, E.eopt (E.eopt e) = E.eopt e)
    (ss : List (Option Stmt)) :
    stmtOptimizeList E (stmtOptimizeList E ss) = stmtOptimizeList E ss := by
  match ss with
  | [] => rfl
  | s :: rest =>
    simp [stmtOptimizeList, stmtOptimizeOpt_idem E hE s,
      stmtOptimizeList_idem E hE rest]
termination_by 3 * sizeOf ss + 2
decreasing_by all_goals (subst_vars; simp_wf; try omega)

end

/-- C9: applying the statement-level optimize pass twice yields the same
statement as applying it once, provided the black-box expression-level
`Optimize` is itself idempotent. -/
theorem C9_optimize_idempotent (E : Env)
    (hE : ∀ e, E.eopt (E.eopt e) = E.eopt e) (s : Stmt) :
    stmtOptimize E (stmtOptimize E s) = stmtOptimize E s :=
  stmtOptimize_idem E hE s

/-- C9 witness: with the identity expression optimizer, optimizing a
declaration twice equals optimizing it once. -/
theorem C9_optimize_idempotent_witness :
    (∀ e : Expr, E0.eopt (E0.eopt e) = E0.eopt e) ∧
      stmtOptimize E0 (stmtOptimize E0 (Stmt.declStmt
        [⟨⟨"x", some uniformInt32, StorageClass.auto, none⟩,
          some (Expr.constE uniformInt32 [1])⟩])) =
        stmtOptimize E0 (Stmt.declStmt
          [⟨⟨"x", some uniformInt32, StorageClass.auto, none⟩,
            some (Expr.constE uniformInt32 [1])⟩]) :=
  ⟨fun _ => rfl, C9_optimize_idempotent E0 (fun _ => rfl) (Stmt.declStmt
    [⟨⟨"x", some uniformInt32, StorageClass.auto, none⟩,
      some (Expr.constE uniformInt32 [1])⟩])⟩


/-- C6 witness: `int a[] = \x7b 1 \x7d` -- the deferred-size dichotomy
instantiated at a one-element brace initializer. -/
theorem C6_deferred_size_array_witness :
    (⟨⟨"a", some (Typ.arr uniformInt32 0), StorageClass.auto, none⟩,
        some (Expr.exprList [Expr.constE uniformInt32 [1]])⟩ : VarDecl).sym.ty = some (Typ.arr uniformInt32 0) ∧
    ((∀ es, (⟨⟨"a", some (Typ.arr uniformInt32 0), StorageClass.auto, none⟩,
        some (Expr.exprList [Expr.constE uniformInt32 [1]])⟩ : VarDecl).init = some (Expr.exprList es) →
      ∃ tail, (declVarEmit E0 (⟨⟨"a", some (Typ.arr uniformInt32 0), StorageClass.auto, none⟩,
        some (Expr.exprList [Expr.constE uniformInt32 [1]])⟩ : VarDecl) ctx0).ops =
        ctx0.ops ++ [Op.symSetVaryingCFDepth (⟨⟨"a", some (Typ.arr uniformInt32 0), StorageClass.auto, none⟩,
        some (Expr.exprList [Expr.constE uniformInt32 [1]])⟩ : VarDecl).sym.name ctx0.varyingCFDepth,
          Op.setDebugPos,
          Op.symSetType (⟨⟨"a", some (Typ.arr uniformInt32 0), StorageClass.auto, none⟩,
        some (Expr.exprList [Expr.constE uniformInt32 [1]])⟩ : VarDecl).sym.name (Typ.arr uniformInt32 es.length)] ++ tail) ∧
    (((⟨⟨"a", some (Typ.arr uniformInt32 0), StorageClass.auto, none⟩,
        some (Expr.exprList [Expr.constE uniformInt32 [1]])⟩ : VarDecl).init = none ∨ ∃ i, (⟨⟨"a", some (Typ.arr uniformInt32 0), StorageClass.auto, none⟩,
        some (Expr.exprList [Expr.constE uniformInt32 [1]])⟩ : VarDecl).init = some i ∧ i.isExprList = false) →
      (declVarEmit E0 (⟨⟨"a", some (Typ.arr uniformInt32 0), StorageClass.auto, none⟩,
        some (Expr.exprList [Expr.constE uniformInt32 [1]])⟩ : VarDecl) ctx0).ops =
        ctx0.ops ++ [Op.symSetVaryingCFDepth (⟨⟨"a", some (Typ.arr uniformInt32 0), StorageClass.auto, none⟩,
        some (Expr.exprList [Expr.constE uniformInt32 [1]])⟩ : VarDecl).sym.name ctx0.varyingCFDepth,
          Op.setDebugPos, Op.error ErrKind.unsizedArrayNoInit])) :=
  ⟨rfl, C6_deferred_size_array E0 (⟨⟨"a", some (Typ.arr uniformInt32 0), StorageClass.auto, none⟩,
        some (Expr.exprList [Expr.constE uniformInt32 [1]])⟩ : VarDecl) uniformInt32 ctx0 rfl⟩

end Ispc
